import Mathlib

/-!
Verification development for the WorkloadSequencer of
src/harness/determined/layers/_workload_sequencer.py.

The Python class is shallowly embedded: the savable state is a record of
unbounded integers, fallible code (ValueError, failed assertions) returns
an error value, the ShouldExit exception is a stop flag threaded through
every step, and the generator protocol (yield a workload, resume with the
response) is modelled by an oracle of responses indexed by the number of
workloads emitted so far.
-/

namespace WLSQ

/-- Python sys.maxsize on a 64-bit platform. -/
def sysMaxsize : Int := 2 ^ 63 - 1

/-- The workload kinds emitted by the sequencer. -/
inductive Kind where
  | RUN_STEP
  | COMPUTE_VALIDATION_METRICS
  | CHECKPOINT_MODEL
deriving DecidableEq, Repr

/-- The fields of workload.Workload that the sequencer fills in (the
experiment and trial ids are constant and omitted). -/
structure Workload where
  kind : Kind
  s_id : Int
  num_batches : Int
  total_batches_processed : Int
deriving DecidableEq, Repr

/-- WorkloadSequencer.SavableState: the persisted counters. -/
structure SavableState where
  trial_id : Int
  last_ckpt : Int
  latest_batch : Int
  total_records : Option Int
  step_id : Int
  last_val : Int
deriving DecidableEq, Repr

/-- The state built in WorkloadSequencer.__init__: all counters at their
Python defaults (total_records defaults to 0, not None). -/
def initState (tid : Int) : SavableState :=
  { trial_id := tid, last_ckpt := 0, latest_batch := 0,
    total_records := some 0, step_id := 0, last_val := 0 }

/-- WorkloadSequencer.get_state: returns the dict of the state fields,
modelled as the record itself. -/
def get_state (s : SavableState) : SavableState := s

/-- WorkloadSequencer.load_state.  tid is self.trial_id, vfpr is
self.val_from_previous_run.  A snapshot with a different trial id is
discarded; otherwise all fields are adopted and the last-validation repair
rule is applied. -/
def load_state (tid : Int) (vfpr : Option Int) (cur snap : SavableState) :
    SavableState :=
  if snap.trial_id ≠ tid then cur
  else if vfpr = some snap.latest_batch then
    { snap with last_val := snap.latest_batch }
  else snap

/-- The checkpoint_policy experiment-config values. -/
inductive CkptPolicy where
  | best
  | all
  | none_
deriving DecidableEq, Repr

/-- The constant configuration read in WorkloadSequencer.__init__. -/
structure Conf where
  global_batch_size : Int
  records_per_epoch : Option Int
  min_val_period_batches : Int
  min_ckpt_period_batches : Int
  scheduling_unit : Int
  want_initial_val : Bool
  val_from_previous_run : Option Int
  ckpt_policy : CkptPolicy
  smaller_is_better : Bool
deriving DecidableEq, Repr

/-- WorkloadSequencer.as_batches.  Exactly one of the three length fields
must be set; check.gt / check.is_instance failures and the ValueError are
error results.  Python floor division // is Int.fdiv. -/
def as_batches (cfg : Conf) (batches records epochs : Option Int) :
    Except String Int :=
  if (if batches.isSome then 1 else 0) + (if records.isSome then 1 else 0)
      + (if epochs.isSome then 1 else 0) ≠ 1 then
    .error "invalid length"
  else
    match batches with
    | some b => .ok b
    | none =>
      match records with
      | some r =>
        if 0 < cfg.global_batch_size then
          .ok (max (Int.fdiv r cfg.global_batch_size) 1)
        else .error "global_batch_size must be positive"
      | none =>
        match epochs with
        | some e =>
          match cfg.records_per_epoch with
          | some rpe =>
            if 0 < cfg.global_batch_size then
              .ok (max (Int.fdiv (e * rpe) cfg.global_batch_size) 1)
            else .error "global_batch_size must be positive"
          | none => .error "length must be an integer"
        | none => .error "invalid length"

/-- The replacement applied to each period in __init__: a period that
converts to fewer than 1 batch becomes sys.maxsize. -/
def mkPeriod (p : Int) : Int := if p < 1 then sysMaxsize else p

/-- WorkloadSequencer.batches_until_val. -/
def batches_until_val (cfg : Conf) (s : SavableState) : Int :=
  s.last_val + cfg.min_val_period_batches - s.latest_batch

/-- WorkloadSequencer.batches_until_ckpt. -/
def batches_until_ckpt (cfg : Conf) (s : SavableState) : Int :=
  s.last_ckpt + cfg.min_ckpt_period_batches - s.latest_batch

/-- WorkloadSequencer.checkpoint_is_current. -/
def checkpoint_is_current (s : SavableState) : Bool :=
  decide (s.last_ckpt = s.latest_batch)

/-- WorkloadSequencer.validation_is_current. -/
def validation_is_current (s : SavableState) : Bool :=
  decide (s.last_val = s.latest_batch)

/-! ### The searcher operation and the response oracle -/

/-- The unit of a searcher operation (determined._generic.Unit). -/
inductive SearchUnit where
  | BATCHES
  | RECORDS
  | EPOCHS
deriving DecidableEq, Repr

/-- Modelled from the spec: an Operation is a unit together with a target
length (the SearcherOp class itself is outside this repository; the spec
describes it as a record with unit and length, its epochs field holding the
length when the unit is epochs). -/
structure SearcherOp where
  unit : SearchUnit
  length : Int
deriving DecidableEq, Repr

/-- The length of the active operation in batches, via as_batches: exactly
one keyword argument is passed, selected by the operation's unit. -/
def asBatchesOp (cfg : Conf) (op : SearcherOp) : Except String Int :=
  as_batches cfg
    (if op.unit = .BATCHES then some op.length else none)
    (if op.unit = .RECORDS then some op.length else none)
    (if op.unit = .EPOCHS then some op.length else none)

/-- WorkloadSequencer.batches_until_op_complete (a ValueError inside
as_batches propagates as an error). -/
def batchesUntilOpComplete (cfg : Conf) (op : SearcherOp) (s : SavableState) :
    Except String Int :=
  (asBatchesOp cfg op).map (fun t => t - s.latest_batch)

/-- The reasons a workload response can carry in exited_reason. -/
inductive ExitedReason where
  | INVALID_HP
  | USER_CANCELED
deriving DecidableEq, Repr

/-- The fields of a workload response that influence the sequencer: the
exited reason, the metrics num_inputs count (for train steps), and the
value of the configured searcher metric (for validations). -/
structure Resp where
  exited_reason : Option ExitedReason
  num_inputs : Option Int
  metric : Int
deriving DecidableEq, Repr

/-- The oracle supplying the environment of a run: the response to the k-th
emitted workload, the k-th preemption poll, and the k-th
get_experiment_best_validation answer. -/
structure World where
  resp : Nat → Resp
  preempt : Nat → Bool
  bestVal : Nat → Option Int

/-- How a run can stop ahead of the normal exit: the ShouldExit exception,
a ValueError (from a check failure inside as_batches), or a failed assert
statement. -/
inductive Stop where
  | exitEx
  | valueErr
  | assertErr
deriving DecidableEq, Repr

/-- The full simulation state: the savable state plus the cursors into the
oracle and the number of times complete was called on the active
operation. -/
structure SimState where
  st : SavableState
  nResp : Nat
  nPre : Nat
  nBest : Nat
  comps : Nat
deriving Repr

/-- The outcome of running a piece of the sequencer: the workloads it
yielded, the state afterwards, and the stop condition if one arose. -/
structure StepRes where
  acts : List Workload
  ss : SimState
  stop : Option Stop
deriving Repr

/-- Sequential composition: run the continuation only when the first piece
did not stop, concatenating the emitted workloads.  This is how the
ShouldExit / ValueError / AssertionError control flow of the Python code is
threaded through straight-line statements. -/
def seqRes (r : StepRes) (f : SimState → StepRes) : StepRes :=
  match r.stop with
  | some _ => r
  | none =>
    let r2 := f r.ss
    ⟨r.acts ++ r2.acts, r2.ss, r2.stop⟩

/-- A piece that does nothing. -/
def noStep (ss : SimState) : StepRes := ⟨[], ss, none⟩

/-! ### The three workload-producing methods -/

/-- The RUN_STEP workload built in WorkloadSequencer.train. -/
def trainW (s : SavableState) (nb : Int) : Workload :=
  { kind := .RUN_STEP, s_id := s.step_id + 1, num_batches := nb,
    total_batches_processed := s.latest_batch }

/-- The COMPUTE_VALIDATION_METRICS workload built in
WorkloadSequencer.validate. -/
def valW (s : SavableState) : Workload :=
  { kind := .COMPUTE_VALIDATION_METRICS, s_id := s.step_id, num_batches := 0,
    total_batches_processed := s.latest_batch }

/-- The CHECKPOINT_MODEL workload built in WorkloadSequencer.checkpoint. -/
def ckptW (s : SavableState) : Workload :=
  { kind := .CHECKPOINT_MODEL, s_id := s.step_id, num_batches := 0,
    total_batches_processed := s.latest_batch }

/-- The counter updates applied to the state after a successful train
response: latest_batch advances by num_batches, total_records absorbs a
missing num_inputs into a permanent None, step_id increments. -/
def applyTrainResult (s : SavableState) (nb : Int) (ni : Option Int) :
    SavableState :=
  { s with
    latest_batch := s.latest_batch + nb,
    total_records :=
      match ni, s.total_records with
      | some n, some t => some (t + n)
      | _, _ => none,
    step_id := s.step_id + 1 }

/-- The state update of WorkloadSequencer.validate: last_val is set to
latest_batch. -/
def applyValResult (s : SavableState) : SavableState :=
  { s with last_val := s.latest_batch }

/-- The state update at the top of WorkloadSequencer.checkpoint: last_ckpt
is set to latest_batch before the workload is yielded. -/
def applyCkptStart (s : SavableState) : SavableState :=
  { s with last_ckpt := s.latest_batch }

/-- WorkloadSequencer.check_for_preemption: poll the preemption oracle and
raise ShouldExit when it fires. -/
def checkPreempt (w : World) (ss : SimState) : StepRes :=
  let pre := w.preempt ss.nPre
  ⟨[], { ss with nPre := ss.nPre + 1 }, if pre then some .exitEx else none⟩

/-- The progress report at the end of train: for an epochs-unit operation
the code calls as_batches with the epochs keyword, whose check failures
propagate as a ValueError. -/
def progressCheck (cfg : Conf) (op : SearcherOp) : Except String Unit :=
  match op.unit with
  | .BATCHES => .ok ()
  | .RECORDS => .ok ()
  | .EPOCHS => (as_batches cfg none none (some op.length)).map (fun _ => ())

/-- WorkloadSequencer.train. -/
def train (cfg : Conf) (w : World) (nb : Int) (op : SearcherOp)
    (ss : SimState) : StepRes :=
  let wk := trainW ss.st nb
  let r := w.resp ss.nResp
  let ss1 : SimState := { ss with nResp := ss.nResp + 1 }
  if r.exited_reason = some .INVALID_HP then ⟨[wk], ss1, some .exitEx⟩
  else
    let ss2 := { ss1 with st := applyTrainResult ss1.st nb r.num_inputs }
    match progressCheck cfg op with
    | .error _ => ⟨[wk], ss2, some .valueErr⟩
    | .ok _ =>
      if r.exited_reason = some .USER_CANCELED then ⟨[wk], ss2, some .exitEx⟩
      else
        let r3 := checkPreempt w ss2
        ⟨[wk], r3.ss, r3.stop⟩

/-- WorkloadSequencer.checkpoint.  With already_exiting the method returns
right after reporting the checkpoint; otherwise any exited reason raises
ShouldExit (INVALID_HP additionally reports an early exit upward, which is
external), and finally preemption is polled. -/
def checkpoint (cfg : Conf) (w : World) (already_exiting : Bool)
    (ss : SimState) : StepRes :=
  let st1 := applyCkptStart ss.st
  let wk := ckptW st1
  let r := w.resp ss.nResp
  let ss1 : SimState := { ss with st := st1, nResp := ss.nResp + 1 }
  if already_exiting then ⟨[wk], ss1, none⟩
  else if r.exited_reason.isSome then ⟨[wk], ss1, some .exitEx⟩
  else
    let r2 := checkPreempt w ss1
    ⟨[wk], r2.ss, r2.stop⟩

/-- The op-completion fragment of WorkloadSequencer.validate: when an
operation is bound and its remaining batch count is below 1, complete is
called on it with the searcher metric (counted in comps); an as_batches
failure inside batches_until_op_complete propagates as a ValueError. -/
def compFragment (cfg : Conf) (op : Option SearcherOp) (ss : SimState) :
    Except String SimState :=
  match op with
  | none => .ok ss
  | some o =>
    (batchesUntilOpComplete cfg o ss.st).map
      (fun rem => if rem < 1 then { ss with comps := ss.comps + 1 } else ss)

/-- WorkloadSequencer.is_best_validation. -/
def is_best_validation (cfg : Conf) (now : Int) (before : Option Int) :
    Bool :=
  match before with
  | none => true
  | some b => if cfg.smaller_is_better then decide (now < b)
              else decide (b < now)

/-- The tail of WorkloadSequencer.validate after last_val has been set:
abort on USER_CANCELED, otherwise a policy-driven nested checkpoint or the
preemption poll. -/
def valFinish (cfg : Conf) (w : World) (wk : Workload) (r : Resp)
    (before : Option Int) (ss4 : SimState) : StepRes :=
  if r.exited_reason = some .USER_CANCELED then ⟨[wk], ss4, some .exitEx⟩
  else if !(checkpoint_is_current ss4.st)
      && (cfg.ckpt_policy = CkptPolicy.all
          || (cfg.ckpt_policy = CkptPolicy.best
              && is_best_validation cfg r.metric before)) then
    let r2 := checkpoint cfg w false ss4
    ⟨wk :: r2.acts, r2.ss, r2.stop⟩
  else
    let r3 := checkPreempt w ss4
    ⟨[wk], r3.ss, r3.stop⟩

/-- Whether validate queries the experiment's best validation: checkpoint
policy best and no checkpoint covering the current batch. -/
def qBestOf (cfg : Conf) (ss2 : SimState) : Bool :=
  cfg.ckpt_policy = CkptPolicy.best && !(checkpoint_is_current ss2.st)

/-- Advance the best-validation query cursor when a query is made. -/
def bumpBest (q : Bool) (ss2 : SimState) : SimState :=
  if q then { ss2 with nBest := ss2.nBest + 1 } else ss2

/-- Apply the last_val update of validate to the simulation state. -/
def setLastVal (ss : SimState) : SimState :=
  { ss with st := applyValResult ss.st }

/-- The part of WorkloadSequencer.validate after the op-completion
fragment: query the best validation when the checkpoint policy is best and
no checkpoint covers the current batch, set last_val, and finish. -/
def valAfterComp (cfg : Conf) (w : World) (wk : Workload) (r : Resp)
    (ss2 : SimState) : StepRes :=
  valFinish cfg w wk r
    (if qBestOf cfg ss2 then w.bestVal ss2.nBest else none)
    (setLastVal (bumpBest (qBestOf cfg ss2) ss2))

theorem bumpBest_st (q : Bool) (x : SimState) : (bumpBest q x).st = x.st := by
  unfold bumpBest
  split <;> rfl

theorem bumpBest_nResp (q : Bool) (x : SimState) :
    (bumpBest q x).nResp = x.nResp := by
  unfold bumpBest
  split <;> rfl

theorem bumpBest_comps (q : Bool) (x : SimState) :
    (bumpBest q x).comps = x.comps := by
  unfold bumpBest
  split <;> rfl

/-- WorkloadSequencer.validate. -/
def validate (cfg : Conf) (w : World) (op : Option SearcherOp)
    (ss : SimState) : StepRes :=
  let wk := valW ss.st
  let r := w.resp ss.nResp
  let ss1 : SimState := { ss with nResp := ss.nResp + 1 }
  if r.exited_reason = some .INVALID_HP then ⟨[wk], ss1, some .exitEx⟩
  else
    match compFragment cfg op ss1 with
    | .error _ => ⟨[wk], ss1, some .valueErr⟩
    | .ok ss2 => valAfterComp cfg w wk r ss2

/-! ### The main loop of __iter__ -/

/-- The pause-training-to-validate check of the main loop. -/
def valSlot (cfg : Conf) (w : World) (op : SearcherOp) (ss : SimState) :
    StepRes :=
  if batches_until_val cfg ss.st < 1 then validate cfg w (some op) ss
  else noStep ss

/-- The pause-training-to-checkpoint check of the main loop. -/
def ckptSlot (cfg : Conf) (w : World) (ss : SimState) : StepRes :=
  if batches_until_ckpt cfg ss.st < 1 then checkpoint cfg w false ss
  else noStep ss

/-- The number of batches passed to train by the main loop: max(1, min of
the three until-counters and the scheduling unit); the ValueError of
batches_until_op_complete propagates. -/
def trainLenE (cfg : Conf) (op : SearcherOp) (s : SavableState) :
    Except String Int :=
  (batchesUntilOpComplete cfg op s).map
    (fun rem =>
      max 1 (min (batches_until_ckpt cfg s)
        (min (batches_until_val cfg s) (min rem cfg.scheduling_unit))))

/-- The do-some-training tail of a loop iteration. -/
def trainSlot (cfg : Conf) (w : World) (op : SearcherOp) (ss : SimState) :
    StepRes :=
  match trainLenE cfg op ss.st with
  | .error _ => ⟨[], ss, some .valueErr⟩
  | .ok nb => train cfg w nb op ss

/-- One iteration of the while loop in __iter__: maybe validate, maybe
checkpoint, then train. -/
def iteration (cfg : Conf) (w : World) (op : SearcherOp) (ss : SimState) :
    StepRes :=
  seqRes (valSlot cfg w op ss) (fun s1 =>
    seqRes (ckptSlot cfg w s1) (fun s2 =>
      trainSlot cfg w op s2))

/-! #### Unfolding equations for the combinators -/

theorem seqRes_some (r : StepRes) (f : SimState → StepRes) (s : Stop)
    (h : r.stop = some s) : seqRes r f = r := by
  unfold seqRes
  rw [h]

theorem seqRes_none (r : StepRes) (f : SimState → StepRes)
    (h : r.stop = none) :
    seqRes r f = ⟨r.acts ++ (f r.ss).acts, (f r.ss).ss, (f r.ss).stop⟩ := by
  unfold seqRes
  rw [h]

theorem trainSlot_ok (cfg : Conf) (w : World) (op : SearcherOp)
    (ss : SimState) (nb : Int) (h : trainLenE cfg op ss.st = .ok nb) :
    trainSlot cfg w op ss = train cfg w nb op ss := by
  unfold trainSlot
  rw [h]

theorem trainSlot_err (cfg : Conf) (w : World) (op : SearcherOp)
    (ss : SimState) (e : String) (h : trainLenE cfg op ss.st = .error e) :
    trainSlot cfg w op ss = ⟨[], ss, some .valueErr⟩ := by
  unfold trainSlot
  rw [h]

/-! #### Progress facts needed for the termination of the loop -/

theorem checkPreempt_st (w : World) (ss : SimState) :
    (checkPreempt w ss).ss.st = ss.st := rfl

theorem checkpoint_latest (cfg : Conf) (w : World) (b : Bool)
    (ss : SimState) :
    (checkpoint cfg w b ss).ss.st.latest_batch = ss.st.latest_batch := by
  simp only [checkpoint]
  split
  · rfl
  · split
    · rfl
    · rfl

theorem compFragment_st (cfg : Conf) (op : Option SearcherOp)
    (ss ss2 : SimState) (h : compFragment cfg op ss = .ok ss2) :
    ss2.st = ss.st := by
  cases op with
  | none =>
    simp only [compFragment] at h
    cases h
    rfl
  | some o =>
    simp only [compFragment, Except.map] at h
    cases hb : batchesUntilOpComplete cfg o ss.st with
    | error e => rw [hb] at h; cases h
    | ok rem =>
      rw [hb] at h
      simp only at h
      split at h <;> (cases h; rfl)

theorem valFinish_latest (cfg : Conf) (w : World) (wk : Workload) (r : Resp)
    (before : Option Int) (ss4 : SimState) :
    (valFinish cfg w wk r before ss4).ss.st.latest_batch
      = ss4.st.latest_batch := by
  simp only [valFinish]
  split
  · rfl
  · split
    · show (checkpoint cfg w false ss4).ss.st.latest_batch = _
      exact checkpoint_latest cfg w false ss4
    · rfl

theorem valAfterComp_latest (cfg : Conf) (w : World) (wk : Workload)
    (r : Resp) (ss2 : SimState) :
    (valAfterComp cfg w wk r ss2).ss.st.latest_batch
      = ss2.st.latest_batch := by
  simp only [valAfterComp]
  rw [valFinish_latest]
  unfold setLastVal
  rw [show ∀ y : SimState, ({ y with st := applyValResult y.st}
      : SimState).st = applyValResult y.st from fun y => rfl]
  rw [bumpBest_st]
  rfl

theorem validate_latest (cfg : Conf) (w : World) (op : Option SearcherOp)
    (ss : SimState) :
    (validate cfg w op ss).ss.st.latest_batch = ss.st.latest_batch := by
  simp only [validate]
  split
  · rfl
  · split
    · rfl
    · rename_i ss2 h
      have hst := compFragment_st cfg op _ _ h
      rw [valAfterComp_latest, hst]

theorem train_latest_of_none (cfg : Conf) (w : World) (nb : Int)
    (op : SearcherOp) (ss : SimState)
    (h : (train cfg w nb op ss).stop = none) :
    (train cfg w nb op ss).ss.st.latest_batch = ss.st.latest_batch + nb := by
  by_cases hA : (w.resp ss.nResp).exited_reason = some ExitedReason.INVALID_HP
  · simp [train, hA] at h
  · cases hp : progressCheck cfg op with
    | error e => simp [train, hA, hp] at h
    | ok u =>
      by_cases hU : (w.resp ss.nResp).exited_reason
          = some ExitedReason.USER_CANCELED
      · simp [train, hA, hp, hU] at h
      · simp [train, hA, hp, hU, checkPreempt, applyTrainResult]

theorem trainLenE_ok_ge_one (cfg : Conf) (op : SearcherOp) (s : SavableState)
    (nb : Int) (h : trainLenE cfg op s = .ok nb) : 1 ≤ nb := by
  simp only [trainLenE, Except.map] at h
  cases hb : batchesUntilOpComplete cfg op s with
  | error e => rw [hb] at h; cases h
  | ok rem =>
    rw [hb] at h
    simp only at h
    cases h
    exact le_max_left 1 _

theorem valSlot_latest (cfg : Conf) (w : World) (op : SearcherOp)
    (ss : SimState) :
    (valSlot cfg w op ss).ss.st.latest_batch = ss.st.latest_batch := by
  simp only [valSlot]
  split
  · exact validate_latest cfg w (some op) ss
  · rfl

theorem ckptSlot_latest (cfg : Conf) (w : World) (ss : SimState) :
    (ckptSlot cfg w ss).ss.st.latest_batch = ss.st.latest_batch := by
  simp only [ckptSlot]
  split
  · exact checkpoint_latest cfg w false ss
  · rfl

/-- A loop iteration that does not stop advances latest_batch by at least
one batch. -/
theorem iteration_progress (cfg : Conf) (w : World) (op : SearcherOp)
    (ss : SimState) (h : (iteration cfg w op ss).stop = none) :
    ss.st.latest_batch + 1 ≤ (iteration cfg w op ss).ss.st.latest_batch := by
  simp only [iteration] at h ⊢
  cases h1 : (valSlot cfg w op ss).stop with
  | some s =>
    rw [seqRes_some _ _ s h1] at h
    rw [h1] at h
    cases h
  | none =>
    rw [seqRes_none _ _ h1] at h ⊢
    dsimp only at h ⊢
    cases h2 : (ckptSlot cfg w (valSlot cfg w op ss).ss).stop with
    | some s =>
      rw [seqRes_some _ _ s h2] at h
      rw [h2] at h
      cases h
    | none =>
      rw [seqRes_none _ _ h2] at h ⊢
      dsimp only at h ⊢
      have hlat : (ckptSlot cfg w (valSlot cfg w op ss).ss).ss.st.latest_batch
          = ss.st.latest_batch := by
        rw [ckptSlot_latest, valSlot_latest]
      cases h3 : trainLenE cfg op
          (ckptSlot cfg w (valSlot cfg w op ss).ss).ss.st with
      | error e =>
        rw [trainSlot_err cfg w op _ e h3] at h
        cases h
      | ok nb =>
        rw [trainSlot_ok cfg w op _ nb h3] at h ⊢
        have hnb := trainLenE_ok_ge_one cfg op _ nb h3
        have := train_latest_of_none cfg w nb op
          (ckptSlot cfg w (valSlot cfg w op ss).ss).ss h
        omega

/-- The target of the operation after a successful conversion; 0 when the
conversion fails (used only as a termination measure). -/
def asBatchesOpD (cfg : Conf) (op : SearcherOp) : Int :=
  match asBatchesOp cfg op with
  | .ok t => t
  | .error _ => 0

/-- The while loop of __iter__: run iterations while
batches_until_op_complete is positive. -/
def opLoop (cfg : Conf) (w : World) (op : SearcherOp) (ss : SimState) :
    StepRes :=
  match hb : batchesUntilOpComplete cfg op ss.st with
  | .error _ => ⟨[], ss, some .valueErr⟩
  | .ok rem =>
    if hrem : 0 < rem then
      match hit : (iteration cfg w op ss).stop with
      | some _ => iteration cfg w op ss
      | none =>
        let r2 := opLoop cfg w op (iteration cfg w op ss).ss
        ⟨(iteration cfg w op ss).acts ++ r2.acts, r2.ss, r2.stop⟩
    else noStep ss
termination_by (asBatchesOpD cfg op - ss.st.latest_batch).toNat
decreasing_by
  have hprog := iteration_progress cfg w op ss hit
  simp only [batchesUntilOpComplete, Except.map] at hb
  cases ha : asBatchesOp cfg op with
  | error e => rw [ha] at hb; cases hb
  | ok t =>
    rw [ha] at hb
    simp only at hb
    have hd : asBatchesOpD cfg op = t := by
      simp only [asBatchesOpD]
      rw [ha]
    cases hb
    omega

/-! ### After the loop: op completion, the assert, and the driver -/

/-- The assert at the end of an operation: op._completed must hold, i.e.
complete must have been called at least once on the active operation. -/
def assertCompleted (ss : SimState) : StepRes :=
  ⟨[], ss, if ss.comps = 0 then some .assertErr else none⟩

/-- The code after the while loop of __iter__: checkpoint when not
current, then validate when not current, then the completion assert. -/
def opFinish (cfg : Conf) (w : World) (op : SearcherOp) (ss : SimState) :
    StepRes :=
  seqRes (if checkpoint_is_current ss.st then noStep ss
          else checkpoint cfg w false ss) (fun s1 =>
    seqRes (if validation_is_current s1.st then noStep s1
            else validate cfg w (some op) s1) (fun s2 =>
      assertCompleted s2))

/-- Processing one searcher operation: reset the completion count (a new
operation starts uncompleted), run the while loop, then the finish code. -/
def processOp (cfg : Conf) (w : World) (op : SearcherOp) (ss : SimState) :
    StepRes :=
  seqRes (opLoop cfg w op { ss with comps := 0 }) (fun s1 =>
    opFinish cfg w op s1)

/-- The for loop over searcher.ops(). -/
def runOps (cfg : Conf) (w : World) : List SearcherOp → SimState → StepRes
  | [], ss => noStep ss
  | op :: rest, ss =>
    seqRes (processOp cfg w op ss) (fun s1 => runOps cfg w rest s1)

/-- The step-zero validation of __iter__: only when configured, no
validation exists from a previous run, and no batch has been trained. -/
def initialVal (cfg : Conf) (w : World) (ss : SimState) : StepRes :=
  if cfg.want_initial_val && cfg.val_from_previous_run.isNone
      && decide (ss.st.latest_batch = 0) then
    validate cfg w none ss
  else noStep ss

/-- Everything inside the try block of __iter__. -/
def runBody (cfg : Conf) (w : World) (ops : List SearcherOp)
    (ss : SimState) : StepRes :=
  seqRes (initialVal cfg w ss) (fun s1 => runOps cfg w ops s1)

/-- The except-ShouldExit handler of __iter__: checkpoint unsaved work
(with already_exiting set) and exit. -/
def handleExit (cfg : Conf) (w : World) (ss : SimState) : StepRes :=
  if checkpoint_is_current ss.st then noStep ss
  else checkpoint cfg w true ss

/-- The whole of __iter__: the body, with ShouldExit routed to the final
checkpoint handler; a ValueError or AssertionError is not caught, so the
stream just ends there. -/
def runSeq (cfg : Conf) (w : World) (ops : List SearcherOp)
    (ss : SimState) : List Workload × SimState :=
  let r := runBody cfg w ops ss
  match r.stop with
  | some .exitEx =>
    let r2 := handleExit cfg w r.ss
    (r.acts ++ r2.acts, r2.ss)
  | _ => (r.acts, r.ss)

/-- The simulation state at sequencer construction. -/
def initSim (tid : Int) : SimState :=
  ⟨initState tid, 0, 0, 0, 0⟩

/-- A concrete configuration used to instantiate theorems. -/
def cfgW : Conf :=
  { global_batch_size := 4, records_per_epoch := some 100,
    min_val_period_batches := 5, min_ckpt_period_batches := 5,
    scheduling_unit := 100, want_initial_val := false,
    val_from_previous_run := none, ckpt_policy := CkptPolicy.best,
    smaller_is_better := true }

/-- A concrete benign world used to instantiate theorems: every response
succeeds with one input record and metric 0, preemption never fires, and
no best validation is known. -/
def wW : World :=
  { resp := fun _ =>
      { exited_reason := none, num_inputs := some 1, metric := 0 },
    preempt := fun _ => false,
    bestVal := fun _ => none }

/-! ### States reachable by sequences of scheduler operations -/

/-- The states reachable from construction by any sequence of the
state-changing operations of the sequencer: loading a snapshot taken (with
get_state) from another reachable state, applying a successful train
result (the loop always calls train with at least one batch), applying a
validate result, and starting a checkpoint. -/
inductive Reachable (tid : Int) : SavableState → Prop where
  | init : Reachable tid (initState tid)
  | load (s t : SavableState) (vfpr : Option Int) :
      Reachable tid s → Reachable tid t →
      Reachable tid (load_state tid vfpr s (get_state t))
  | train (s : SavableState) (nb : Int) (ni : Option Int) :
      Reachable tid s → 1 ≤ nb → Reachable tid (applyTrainResult s nb ni)
  | validate (s : SavableState) :
      Reachable tid s → Reachable tid (applyValResult s)
  | checkpoint (s : SavableState) :
      Reachable tid s → Reachable tid (applyCkptStart s)

/-! ### The yield / response handshake -/

/-- A value passed to the response function: either real metrics (carrying
a payload) or the Skipped marker. -/
inductive HandshakeResponse where
  | metrics (v : Int)
  | skipped
deriving DecidableEq, Repr

/-- The respond closure of yield_and_await_response, applied to each value
the executor passes in invocation order: Skipped fails the assert inside
respond, and otherwise the nonlocal out is overwritten. -/
def runRespond : Option Int → List HandshakeResponse → Except Unit (Option Int)
  | out, [] => .ok out
  | _, .skipped :: _ => .error ()
  | _, .metrics v :: rest => runRespond (some v) rest

/-- yield_and_await_response as a function of the list of invocations of
its response function between the yield and the resume: after the calls
run, the resume asserts that out was set and returns it. -/
def yield_and_await_response (calls : List HandshakeResponse) :
    Except Unit Int :=
  match runRespond none calls with
  | .error e => .error e
  | .ok none => .error ()
  | .ok (some v) => .ok v

/-! ### Unfolding equations for the loop -/

theorem opLoop_err (cfg : Conf) (w : World) (op : SearcherOp)
    (ss : SimState) (e : String)
    (h : batchesUntilOpComplete cfg op ss.st = .error e) :
    opLoop cfg w op ss = ⟨[], ss, some .valueErr⟩ := by
  rw [opLoop]
  rw [h]

theorem opLoop_done (cfg : Conf) (w : World) (op : SearcherOp)
    (ss : SimState) (rem : Int)
    (h : batchesUntilOpComplete cfg op ss.st = .ok rem) (hrem : ¬ 0 < rem) :
    opLoop cfg w op ss = noStep ss := by
  rw [opLoop]
  rw [h]
  simp [hrem]

theorem opLoop_stop (cfg : Conf) (w : World) (op : SearcherOp)
    (ss : SimState) (rem : Int) (s : Stop)
    (h : batchesUntilOpComplete cfg op ss.st = .ok rem) (hrem : 0 < rem)
    (hit : (iteration cfg w op ss).stop = some s) :
    opLoop cfg w op ss = iteration cfg w op ss := by
  rw [opLoop]
  rw [h]
  simp only [hrem, dite_eq_ite, if_true]
  split
  · rfl
  · rename_i hnone
    rw [hit] at hnone
    cases hnone

theorem opLoop_cont (cfg : Conf) (w : World) (op : SearcherOp)
    (ss : SimState) (rem : Int)
    (h : batchesUntilOpComplete cfg op ss.st = .ok rem) (hrem : 0 < rem)
    (hit : (iteration cfg w op ss).stop = none) :
    opLoop cfg w op ss =
      ⟨(iteration cfg w op ss).acts
          ++ (opLoop cfg w op (iteration cfg w op ss).ss).acts,
        (opLoop cfg w op (iteration cfg w op ss).ss).ss,
        (opLoop cfg w op (iteration cfg w op ss).ss).stop⟩ := by
  rw [opLoop]
  rw [h]
  simp only [hrem, dite_eq_ite, if_true]
  split
  · rename_i hsome
    rw [hit] at hsome
    cases hsome
  · rfl

/-! ### latest_batch never decreases -/

theorem seqRes_latest_le (r : StepRes) (f : SimState → StepRes)
    (hf : ∀ ss, ss.st.latest_batch ≤ (f ss).ss.st.latest_batch) :
    r.ss.st.latest_batch ≤ (seqRes r f).ss.st.latest_batch := by
  cases hs : r.stop with
  | none =>
    rw [seqRes_none _ _ hs]
    exact hf r.ss
  | some s =>
    rw [seqRes_some _ _ s hs]

theorem train_latest_mono (cfg : Conf) (w : World) (nb : Int)
    (op : SearcherOp) (ss : SimState) (hnb : 0 ≤ nb) :
    ss.st.latest_batch ≤ (train cfg w nb op ss).ss.st.latest_batch := by
  by_cases hA : (w.resp ss.nResp).exited_reason = some ExitedReason.INVALID_HP
  · simp [train, hA]
  · cases hp : progressCheck cfg op with
    | error e =>
      simp [train, hA, hp, applyTrainResult]
      omega
    | ok u =>
      by_cases hU : (w.resp ss.nResp).exited_reason
          = some ExitedReason.USER_CANCELED
      · simp [train, hA, hp, hU, applyTrainResult]
        omega
      · simp [train, hA, hp, hU, checkPreempt, applyTrainResult]
        omega

theorem trainSlot_latest_mono (cfg : Conf) (w : World) (op : SearcherOp)
    (ss : SimState) :
    ss.st.latest_batch ≤ (trainSlot cfg w op ss).ss.st.latest_batch := by
  cases h : trainLenE cfg op ss.st with
  | error e => rw [trainSlot_err cfg w op ss e h]
  | ok nb =>
    rw [trainSlot_ok cfg w op ss nb h]
    have := trainLenE_ok_ge_one cfg op ss.st nb h
    exact train_latest_mono cfg w nb op ss (by omega)

theorem iteration_latest_mono (cfg : Conf) (w : World) (op : SearcherOp)
    (ss : SimState) :
    ss.st.latest_batch ≤ (iteration cfg w op ss).ss.st.latest_batch := by
  unfold iteration
  have h1 : ss.st.latest_batch = (valSlot cfg w op ss).ss.st.latest_batch :=
    (valSlot_latest cfg w op ss).symm
  rw [h1]
  apply seqRes_latest_le
  intro s1
  have h2 : s1.st.latest_batch = (ckptSlot cfg w s1).ss.st.latest_batch :=
    (ckptSlot_latest cfg w s1).symm
  rw [h2]
  apply seqRes_latest_le
  intro s2
  exact trainSlot_latest_mono cfg w op s2

theorem opLoop_latest_mono (cfg : Conf) (w : World) (op : SearcherOp)
    (ss : SimState) :
    ss.st.latest_batch ≤ (opLoop cfg w op ss).ss.st.latest_batch := by
  apply opLoop.induct cfg w op
    (fun x => x.st.latest_batch ≤ (opLoop cfg w op x).ss.st.latest_batch)
  · intro x e h
    rw [opLoop_err cfg w op x e h]
  · intro x rem h hrem s hit
    rw [opLoop_stop cfg w op x rem s h hrem hit]
    exact iteration_latest_mono cfg w op x
  · intro x rem h hrem hit ih
    rw [opLoop_cont cfg w op x rem h hrem hit]
    have h1 := iteration_latest_mono cfg w op x
    exact le_trans h1 ih
  · intro x rem h hrem
    rw [opLoop_done cfg w op x rem h hrem]
    exact le_refl _

theorem assertCompleted_latest (ss : SimState) :
    (assertCompleted ss).ss.st.latest_batch = ss.st.latest_batch := rfl

theorem opFinish_latest (cfg : Conf) (w : World) (op : SearcherOp)
    (ss : SimState) :
    (opFinish cfg w op ss).ss.st.latest_batch = ss.st.latest_batch := by
  unfold opFinish
  have h1 : ∀ s1 : SimState,
      ((if checkpoint_is_current s1.st then noStep s1
        else checkpoint cfg w false s1)).ss.st.latest_batch
        = s1.st.latest_batch := by
    intro s1
    split
    · rfl
    · exact checkpoint_latest cfg w false s1
  have h2 : ∀ s1 : SimState,
      ((if validation_is_current s1.st then noStep s1
        else validate cfg w (some op) s1)).ss.st.latest_batch
        = s1.st.latest_batch := by
    intro s1
    split
    · rfl
    · exact validate_latest cfg w (some op) s1
  refine le_antisymm ?_ ?_
  · cases hs : (if checkpoint_is_current ss.st then noStep ss
        else checkpoint cfg w false ss).stop with
    | none =>
      rw [seqRes_none _ _ hs]
      dsimp only
      cases hs2 : (if validation_is_current (if checkpoint_is_current ss.st
            then noStep ss else checkpoint cfg w false ss).ss.st then
          noStep (if checkpoint_is_current ss.st then noStep ss
            else checkpoint cfg w false ss).ss
          else validate cfg w (some op) (if checkpoint_is_current ss.st
            then noStep ss else checkpoint cfg w false ss).ss).stop with
      | none =>
        rw [seqRes_none _ _ hs2]
        dsimp only [assertCompleted]
        rw [h2, h1]
      | some s =>
        rw [seqRes_some _ _ s hs2]
        rw [h2, h1]
    | some s =>
      rw [seqRes_some _ _ s hs]
      rw [h1]
  · rw [show ss.st.latest_batch = (if checkpoint_is_current ss.st
        then noStep ss else checkpoint cfg w false ss).ss.st.latest_batch
        from (h1 ss).symm]
    apply seqRes_latest_le
    intro s1
    rw [show s1.st.latest_batch = (if validation_is_current s1.st
        then noStep s1 else validate cfg w (some op) s1).ss.st.latest_batch
        from (h2 s1).symm]
    apply seqRes_latest_le
    intro s2
    rw [assertCompleted_latest]

theorem processOp_latest_mono (cfg : Conf) (w : World) (op : SearcherOp)
    (ss : SimState) :
    ss.st.latest_batch ≤ (processOp cfg w op ss).ss.st.latest_batch := by
  unfold processOp
  have h0 : ss.st.latest_batch
      ≤ (opLoop cfg w op { ss with comps := 0 }).ss.st.latest_batch :=
    opLoop_latest_mono cfg w op { ss with comps := 0 }
  refine le_trans h0 ?_
  apply seqRes_latest_le
  intro s1
  rw [opFinish_latest]

theorem runOps_latest_mono (cfg : Conf) (w : World) (ops : List SearcherOp)
    (ss : SimState) :
    ss.st.latest_batch ≤ (runOps cfg w ops ss).ss.st.latest_batch := by
  induction ops generalizing ss with
  | nil => exact le_refl _
  | cons op rest ih =>
    unfold runOps
    refine le_trans (processOp_latest_mono cfg w op ss) ?_
    apply seqRes_latest_le
    intro s1
    exact ih s1

theorem initialVal_latest (cfg : Conf) (w : World) (ss : SimState) :
    (initialVal cfg w ss).ss.st.latest_batch = ss.st.latest_batch := by
  unfold initialVal
  split
  · exact validate_latest cfg w none ss
  · rfl

theorem runBody_latest_mono (cfg : Conf) (w : World) (ops : List SearcherOp)
    (ss : SimState) :
    ss.st.latest_batch ≤ (runBody cfg w ops ss).ss.st.latest_batch := by
  unfold runBody
  rw [show ss.st.latest_batch = (initialVal cfg w ss).ss.st.latest_batch
      from (initialVal_latest cfg w ss).symm]
  apply seqRes_latest_le
  intro s1
  exact runOps_latest_mono cfg w ops s1

theorem handleExit_latest (cfg : Conf) (w : World) (ss : SimState) :
    (handleExit cfg w ss).ss.st.latest_batch = ss.st.latest_batch := by
  unfold handleExit
  split
  · rfl
  · exact checkpoint_latest cfg w true ss

theorem runSeq_latest_mono (cfg : Conf) (w : World) (ops : List SearcherOp)
    (ss : SimState) :
    ss.st.latest_batch ≤ (runSeq cfg w ops ss).2.st.latest_batch := by
  unfold runSeq
  have h0 := runBody_latest_mono cfg w ops ss
  dsimp only
  split
  · dsimp only
    rw [handleExit_latest]
    exact h0
  · exact h0

/-! ### Claim C1: counter invariants and monotonicity -/

theorem reachable_trial_id (tid : Int) (s : SavableState)
    (h : Reachable tid s) : s.trial_id = tid := by
  induction h with
  | init => rfl
  | load s t vfpr _ _ ihs iht =>
    unfold load_state get_state
    split
    · exact ihs
    · split
      · exact iht
      · exact iht
  | train s nb ni _ _ ih => exact ih
  | validate s _ ih => exact ih
  | checkpoint s _ ih => exact ih

theorem reachable_inv (tid : Int) (s : SavableState) (h : Reachable tid s) :
    s.last_ckpt ≤ s.latest_batch ∧ s.last_val ≤ s.latest_batch := by
  induction h with
  | init =>
    constructor <;> simp [initState]
  | load s t vfpr hs ht ihs iht =>
    unfold load_state get_state
    split
    · exact ihs
    · split
      · constructor
        · simpa using iht.1
        · simp
      · exact iht
  | train s nb ni _ hnb ih =>
    unfold applyTrainResult
    constructor
    · simp only
      omega
    · simp only
      omega
  | validate s _ ih =>
    unfold applyValResult
    constructor
    · simpa using ih.1
    · simp
  | checkpoint s _ ih =>
    unfold applyCkptStart
    constructor
    · simp
    · simpa using ih.2

/-- C1: every state reachable by any sequence of scheduler operations
(construction, load_state of a snapshot of a reachable state, applying
train, validate and checkpoint results) satisfies last_ckpt ≤ latest_batch
and last_val ≤ latest_batch; and latest_batch never decreases: not by a
train result (with the at-least-one-batch argument the loop always
passes), not by a validate or checkpoint action (which leave it unchanged),
and not across a whole run of the action sequence. -/
theorem c1_counter_invariants :
    (∀ (tid : Int) (s : SavableState), Reachable tid s →
      s.last_ckpt ≤ s.latest_batch ∧ s.last_val ≤ s.latest_batch) ∧
    (∀ (cfg : Conf) (w : World) (nb : Int) (op : SearcherOp) (ss : SimState),
      0 ≤ nb →
      ss.st.latest_batch ≤ (train cfg w nb op ss).ss.st.latest_batch) ∧
    (∀ (cfg : Conf) (w : World) (op : Option SearcherOp) (ss : SimState),
      (validate cfg w op ss).ss.st.latest_batch = ss.st.latest_batch) ∧
    (∀ (cfg : Conf) (w : World) (b : Bool) (ss : SimState),
      (checkpoint cfg w b ss).ss.st.latest_batch = ss.st.latest_batch) ∧
    (∀ (cfg : Conf) (w : World) (ops : List SearcherOp) (ss : SimState),
      ss.st.latest_batch ≤ (runSeq cfg w ops ss).2.st.latest_batch) := by
  refine ⟨reachable_inv, ?_, validate_latest, checkpoint_latest,
    runSeq_latest_mono⟩
  intro cfg w nb op ss hnb
  exact train_latest_mono cfg w nb op ss hnb

/-- Witness for C1 at a concrete reachable state and a concrete train
application. -/
theorem c1_counter_invariants_witness :
    ((applyTrainResult (initState 7) 3 (some 5)).last_ckpt
        ≤ (applyTrainResult (initState 7) 3 (some 5)).latest_batch
      ∧ (applyTrainResult (initState 7) 3 (some 5)).last_val
        ≤ (applyTrainResult (initState 7) 3 (some 5)).latest_batch) :=
  c1_counter_invariants.1 7 (applyTrainResult (initState 7) 3 (some 5))
    (Reachable.train (initState 7) 3 (some 5) Reachable.init (by decide))

/-! ### Claim C7: as_batches -/

/-- C7: with exactly one field set, as_batches returns batches unchanged;
max(records // global_batch_size, 1) when global_batch_size is positive;
and max((epochs * records_per_epoch) // global_batch_size, 1) when
records_per_epoch is an integer and global_batch_size is positive — and
the two concrete conversions of the spec. -/
theorem c7_as_batches (cfg : Conf) (b r e : Int) :
    (as_batches cfg (some b) none none = .ok b) ∧
    (0 < cfg.global_batch_size →
      as_batches cfg none (some r) none
        = .ok (max (Int.fdiv r cfg.global_batch_size) 1)) ∧
    (∀ rpe : Int, cfg.records_per_epoch = some rpe →
      0 < cfg.global_batch_size →
      as_batches cfg none none (some e)
        = .ok (max (Int.fdiv (e * rpe) cfg.global_batch_size) 1)) ∧
    (as_batches { cfg with global_batch_size := 4 } none (some 10) none
      = .ok 2) ∧
    (as_batches { cfg with
        global_batch_size := 10,
        records_per_epoch := some 100 } none none (some 2) = .ok 20) := by
  refine ⟨rfl, ?_, ?_, ?_, ?_⟩
  · intro hgbs
    simp [as_batches, hgbs]
  · intro rpe hrpe hgbs
    simp [as_batches, hrpe, hgbs]
  · rfl
  · rfl

/-- Witness for C7 at a concrete configuration. -/
theorem c7_as_batches_witness :
    as_batches cfgW none (some 10) none
      = .ok (max (Int.fdiv 10 4) 1) :=
  (c7_as_batches cfgW 0 10 0).2.1 (by decide)

/-! ### Claim C8: load_state round trip -/

/-- C8: loading the snapshot taken by get_state from a state with the
current trial id reproduces that state, except that last_val is set to
latest_batch exactly when the restored latest_batch equals the validation
batch known from a previous run; a snapshot with a different trial id
leaves the current state unchanged. -/
theorem c8_load_state_round_trip (tid : Int) (vfpr : Option Int)
    (cur s : SavableState) :
    (s.trial_id = tid →
      load_state tid vfpr cur (get_state s)
        = if vfpr = some s.latest_batch then
            { s with last_val := s.latest_batch }
          else s) ∧
    (s.trial_id ≠ tid → load_state tid vfpr cur (get_state s) = cur) := by
  constructor
  · intro hid
    unfold load_state get_state
    simp [hid]
  · intro hid
    unfold load_state get_state
    simp [hid]

/-- Witness for C8 at a concrete state whose latest_batch matches the
previous-run validation batch. -/
theorem c8_load_state_round_trip_witness :
    load_state 3 (some 10) (initState 3)
        (get_state (applyTrainResult (initState 3) 10 none))
      = if (some 10 : Option Int)
            = some (applyTrainResult (initState 3) 10 none).latest_batch then
          { applyTrainResult (initState 3) 10 none with
            last_val := (applyTrainResult (initState 3) 10 none).latest_batch }
        else applyTrainResult (initState 3) 10 none :=
  (c8_load_state_round_trip 3 (some 10) (initState 3)
    (applyTrainResult (initState 3) 10 none)).1 (by decide)

/-! ### Claim C10: non-positive periods become sys.maxsize -/

/-- C10: a configured period that converts to fewer than 1 batch is
replaced by sys.maxsize at construction, and with that period neither
cadence makes an action due on its own: for any state with non-negative
last counters that has trained fewer than sys.maxsize batches, the due
conditions of the main loop are false. -/
theorem c10_disabled_period (p : Int) (cfg : Conf) (s : SavableState)
    (hp : p < 1) :
    mkPeriod p = sysMaxsize ∧
    (0 ≤ s.last_val → s.latest_batch < sysMaxsize →
      ¬ batches_until_val
          { cfg with min_val_period_batches := mkPeriod p } s < 1) ∧
    (0 ≤ s.last_ckpt → s.latest_batch < sysMaxsize →
      ¬ batches_until_ckpt
          { cfg with min_ckpt_period_batches := mkPeriod p } s < 1) := by
  have hmk : mkPeriod p = sysMaxsize := by
    unfold mkPeriod
    simp [hp]
  refine ⟨hmk, ?_, ?_⟩
  · intro h0 hlt
    unfold batches_until_val
    simp only [hmk]
    unfold sysMaxsize at hlt ⊢
    omega
  · intro h0 hlt
    unfold batches_until_ckpt
    simp only [hmk]
    unfold sysMaxsize at hlt ⊢
    omega

/-- Witness for C10 at period 0 and a concrete small state. -/
theorem c10_disabled_period_witness :
    mkPeriod 0 = sysMaxsize ∧
    ¬ batches_until_val { cfgW with min_val_period_batches := mkPeriod 0 }
        (initState 1) < 1 := by
  refine ⟨(c10_disabled_period 0 cfgW (initState 1) (by decide)).1, ?_⟩
  exact (c10_disabled_period 0 cfgW (initState 1) (by decide)).2.1
    (by decide) (by decide)

/-! ### Claim C9: the yield / resume handshake (corrected) -/

/-- C9 counterexample: calling the response function twice does not fail
any assertion — yield_and_await_response resumes fine and silently returns
the value of the second invocation, dropping the first. -/
theorem c9_second_response_counterexample :
    yield_and_await_response
        [HandshakeResponse.metrics 1, HandshakeResponse.metrics 2]
      = .ok 2 := rfl

theorem runRespond_last (l : List HandshakeResponse) (v : Int)
    (hnos : HandshakeResponse.skipped ∉ l) (out : Option Int) :
    runRespond out (l ++ [HandshakeResponse.metrics v]) = .ok (some v) := by
  induction l generalizing out with
  | nil => rfl
  | cons c rest ih =>
    cases c with
    | skipped => simp at hnos
    | metrics u =>
      have hr : HandshakeResponse.skipped ∉ rest := by
        intro hmem
        exact hnos (List.mem_cons_of_mem _ hmem)
      simpa [runRespond] using ih hr (some u)

/-- C9 amended: resuming with zero invocations of the response function
fails the out-is-not-None assertion, but a second invocation does not
fail: each invocation overwrites the nonlocal out, and the value returned
is the one from the last invocation. -/
theorem c9_handshake_amended :
    (yield_and_await_response [] = .error ()) ∧
    (∀ (l : List HandshakeResponse) (v : Int),
      HandshakeResponse.skipped ∉ l →
      yield_and_await_response (l ++ [HandshakeResponse.metrics v])
        = .ok v) := by
  refine ⟨rfl, ?_⟩
  intro l v hnos
  unfold yield_and_await_response
  rw [runRespond_last l v hnos none]

/-- Witness for the amended C9: with two metrics invocations the second
value is returned. -/
theorem c9_handshake_amended_witness :
    yield_and_await_response
        ([HandshakeResponse.metrics 5] ++ [HandshakeResponse.metrics 7])
      = .ok 7 :=
  c9_handshake_amended.2 [HandshakeResponse.metrics 5] 7 (by decide)

/-! ### The shape of the action lists each method emits -/

theorem checkpoint_acts (cfg : Conf) (w : World) (b : Bool) (ss : SimState) :
    (checkpoint cfg w b ss).acts = [ckptW (applyCkptStart ss.st)] := by
  simp only [checkpoint]
  split
  · rfl
  · split
    · rfl
    · rfl

theorem train_acts (cfg : Conf) (w : World) (nb : Int) (op : SearcherOp)
    (ss : SimState) :
    (train cfg w nb op ss).acts = [trainW ss.st nb] := by
  simp only [train]
  split
  · rfl
  · split
    · rfl
    · split
      · rfl
      · rfl

theorem valFinish_acts (cfg : Conf) (w : World) (wk : Workload) (r : Resp)
    (before : Option Int) (ss4 : SimState) :
    ∃ rest, (valFinish cfg w wk r before ss4).acts = wk :: rest := by
  simp only [valFinish]
  split
  · exact ⟨[], rfl⟩
  · split
    · exact ⟨(checkpoint cfg w false ss4).acts, rfl⟩
    · exact ⟨[], rfl⟩

theorem valAfterComp_acts (cfg : Conf) (w : World) (wk : Workload)
    (r : Resp) (ss2 : SimState) :
    ∃ rest, (valAfterComp cfg w wk r ss2).acts = wk :: rest := by
  simp only [valAfterComp]
  exact valFinish_acts cfg w wk r _ _

theorem validate_acts (cfg : Conf) (w : World) (op : Option SearcherOp)
    (ss : SimState) :
    ∃ rest, (validate cfg w op ss).acts = valW ss.st :: rest := by
  simp only [validate]
  split
  · exact ⟨[], rfl⟩
  · split
    · exact ⟨[], rfl⟩
    · exact valAfterComp_acts cfg w _ _ _

theorem valFinish_no_run (cfg : Conf) (w : World) (wk : Workload) (r : Resp)
    (before : Option Int) (ss4 : SimState) (hwk : wk.kind ≠ Kind.RUN_STEP) :
    ∀ x ∈ (valFinish cfg w wk r before ss4).acts, x.kind ≠ Kind.RUN_STEP := by
  simp only [valFinish]
  split
  · intro x hx
    simp at hx
    rw [hx]
    exact hwk
  · split
    · intro x hx
      simp only [List.mem_cons] at hx
      rcases hx with hx | hx
      · rw [hx]
        exact hwk
      · rw [checkpoint_acts] at hx
        simp at hx
        rw [hx]
        simp [ckptW]
    · intro x hx
      simp at hx
      rw [hx]
      exact hwk

theorem validate_no_run (cfg : Conf) (w : World) (op : Option SearcherOp)
    (ss : SimState) :
    ∀ x ∈ (validate cfg w op ss).acts, x.kind ≠ Kind.RUN_STEP := by
  have hval : (valW ss.st).kind ≠ Kind.RUN_STEP := by
    simp [valW]
  simp only [validate]
  split
  · intro x hx
    simp at hx
    rw [hx]
    exact hval
  · split
    · intro x hx
      simp at hx
      rw [hx]
      exact hval
    · simp only [valAfterComp]
      exact valFinish_no_run cfg w _ _ _ _ hval

theorem checkpoint_no_run (cfg : Conf) (w : World) (b : Bool)
    (ss : SimState) :
    ∀ x ∈ (checkpoint cfg w b ss).acts, x.kind ≠ Kind.RUN_STEP := by
  rw [checkpoint_acts]
  intro x hx
  simp at hx
  rw [hx]
  simp [ckptW]

/-! ### Claim C3: the due checks of the main loop (corrected) -/

/-- A configuration whose checkpoint policy is all and whose checkpoint
cadence is far from due. -/
def cfgX : Conf :=
  { cfgW with min_ckpt_period_batches := 100, ckpt_policy := CkptPolicy.all }

/-- A state with a due validation (5 batches since last validation), a
checkpoint 2 batches old, and a far-from-due checkpoint cadence. -/
def stX : SavableState := ⟨1, 3, 5, some 0, 1, 0⟩

/-- The simulation state holding stX. -/
def ssX : SimState := ⟨stX, 0, 0, 0, 0⟩

/-- A plain 10-batch operation. -/
def opX : SearcherOp := ⟨SearchUnit.BATCHES, 10⟩

/-- C3 counterexample: inside the main loop a Checkpoint action is emitted
even though the checkpoint due-condition is false before and throughout
the iteration (98 batches until due): the checkpoint-policy follow-up of
the due validation emits it.  So a Checkpoint is not emitted exactly when
last_ckpt + min_ckpt_period_batches - latest_batch < 1. -/
theorem c3_checkpoint_not_iff_due_counterexample :
    batches_until_ckpt cfgX stX = 98 ∧
    ¬ batches_until_ckpt cfgX stX < 1 ∧
    batches_until_ckpt cfgX (applyValResult stX) = 98 ∧
    (iteration cfgX wW opX ssX).acts.map Workload.kind
      = [Kind.COMPUTE_VALIDATION_METRICS, Kind.CHECKPOINT_MODEL,
          Kind.RUN_STEP] := by
  refine ⟨by decide, by decide, by decide, ?_⟩
  rfl

/-- C3 amended: the pause-training-to-validate check of the main loop
emits a Validate exactly when last_val + min_val_period_batches -
latest_batch < 1, and the pause-training-to-checkpoint check emits a
Checkpoint exactly when last_ckpt + min_ckpt_period_batches - latest_batch
< 1 (though a Checkpoint can additionally be emitted inside the loop by
the checkpoint policy after a validation); with min_val_period_batches = 5
and last_val = 0, validation becomes due exactly when latest_batch ≥ 5. -/
theorem c3_due_checks (cfg : Conf) (w : World) (op : SearcherOp)
    (ss : SimState) :
    (batches_until_val cfg ss.st < 1 →
      ∃ rest, (valSlot cfg w op ss).acts = valW ss.st :: rest) ∧
    (¬ batches_until_val cfg ss.st < 1 → (valSlot cfg w op ss).acts = []) ∧
    (batches_until_ckpt cfg ss.st < 1 →
      (ckptSlot cfg w ss).acts = [ckptW (applyCkptStart ss.st)]) ∧
    (¬ batches_until_ckpt cfg ss.st < 1 → (ckptSlot cfg w ss).acts = []) ∧
    (∀ lb : Int,
      batches_until_val { cfg with min_val_period_batches := 5 }
          { ss.st with last_val := 0, latest_batch := lb } < 1 ↔ 5 ≤ lb) := by
  refine ⟨?_, ?_, ?_, ?_, ?_⟩
  · intro hdue
    unfold valSlot
    rw [if_pos hdue]
    exact validate_acts cfg w (some op) ss
  · intro hdue
    unfold valSlot
    rw [if_neg hdue]
    rfl
  · intro hdue
    unfold ckptSlot
    rw [if_pos hdue]
    exact checkpoint_acts cfg w false ss
  · intro hdue
    unfold ckptSlot
    rw [if_neg hdue]
    rfl
  · intro lb
    unfold batches_until_val
    simp only
    omega

/-- Witness for the amended C3 at the concrete due-validation state. -/
theorem c3_due_checks_witness :
    ∃ rest, (valSlot cfgX wW opX ssX).acts = valW ssX.st :: rest :=
  (c3_due_checks cfgX wW opX ssX).1 (by decide)

/-! ### Every emitted Train action carries at least one batch -/

/-- All RUN_STEP workloads of an action list request at least one
batch. -/
def trainGe1 (l : List Workload) : Prop :=
  ∀ wk ∈ l, wk.kind = Kind.RUN_STEP → 1 ≤ wk.num_batches

theorem trainGe1_of_no_run (l : List Workload)
    (h : ∀ x ∈ l, x.kind ≠ Kind.RUN_STEP) : trainGe1 l := by
  intro wk hwk hkind
  exact absurd hkind (h wk hwk)

theorem seqRes_trainGe1 (r : StepRes) (f : SimState → StepRes)
    (hr : trainGe1 r.acts) (hf : trainGe1 (f r.ss).acts) :
    trainGe1 (seqRes r f).acts := by
  cases hs : r.stop with
  | none =>
    rw [seqRes_none _ _ hs]
    intro wk hwk hkind
    simp only [List.mem_append] at hwk
    rcases hwk with hwk | hwk
    · exact hr wk hwk hkind
    · exact hf wk hwk hkind
  | some s =>
    rw [seqRes_some _ _ s hs]
    exact hr

theorem train_trainGe1 (cfg : Conf) (w : World) (nb : Int)
    (op : SearcherOp) (ss : SimState) (hnb : 1 ≤ nb) :
    trainGe1 (train cfg w nb op ss).acts := by
  rw [train_acts]
  intro wk hwk hkind
  simp at hwk
  rw [hwk]
  exact hnb

theorem trainSlot_trainGe1 (cfg : Conf) (w : World) (op : SearcherOp)
    (ss : SimState) : trainGe1 (trainSlot cfg w op ss).acts := by
  cases h : trainLenE cfg op ss.st with
  | error e =>
    rw [trainSlot_err cfg w op ss e h]
    intro wk hwk
    simp at hwk
  | ok nb =>
    rw [trainSlot_ok cfg w op ss nb h]
    exact train_trainGe1 cfg w nb op ss (trainLenE_ok_ge_one cfg op ss.st nb h)

theorem validate_trainGe1 (cfg : Conf) (w : World) (op : Option SearcherOp)
    (ss : SimState) : trainGe1 (validate cfg w op ss).acts :=
  trainGe1_of_no_run _ (validate_no_run cfg w op ss)

theorem checkpoint_trainGe1 (cfg : Conf) (w : World) (b : Bool)
    (ss : SimState) : trainGe1 (checkpoint cfg w b ss).acts :=
  trainGe1_of_no_run _ (checkpoint_no_run cfg w b ss)

theorem valSlot_trainGe1 (cfg : Conf) (w : World) (op : SearcherOp)
    (ss : SimState) : trainGe1 (valSlot cfg w op ss).acts := by
  unfold valSlot
  split
  · exact validate_trainGe1 cfg w (some op) ss
  · intro wk hwk
    simp [noStep] at hwk

theorem ckptSlot_trainGe1 (cfg : Conf) (w : World) (ss : SimState) :
    trainGe1 (ckptSlot cfg w ss).acts := by
  unfold ckptSlot
  split
  · exact checkpoint_trainGe1 cfg w false ss
  · intro wk hwk
    simp [noStep] at hwk

theorem iteration_trainGe1 (cfg : Conf) (w : World) (op : SearcherOp)
    (ss : SimState) : trainGe1 (iteration cfg w op ss).acts := by
  unfold iteration
  apply seqRes_trainGe1 _ _ (valSlot_trainGe1 cfg w op ss)
  apply seqRes_trainGe1 _ _ (ckptSlot_trainGe1 cfg w _)
  exact trainSlot_trainGe1 cfg w op _

theorem opLoop_trainGe1 (cfg : Conf) (w : World) (op : SearcherOp)
    (ss : SimState) : trainGe1 (opLoop cfg w op ss).acts := by
  apply opLoop.induct cfg w op (fun x => trainGe1 (opLoop cfg w op x).acts)
  · intro x e h
    rw [opLoop_err cfg w op x e h]
    intro wk hwk
    simp at hwk
  · intro x rem h hrem s hit
    rw [opLoop_stop cfg w op x rem s h hrem hit]
    exact iteration_trainGe1 cfg w op x
  · intro x rem h hrem hit ih
    rw [opLoop_cont cfg w op x rem h hrem hit]
    intro wk hwk hkind
    simp only [List.mem_append] at hwk
    rcases hwk with hwk | hwk
    · exact iteration_trainGe1 cfg w op x wk hwk hkind
    · exact ih wk hwk hkind
  · intro x rem h hrem
    rw [opLoop_done cfg w op x rem h hrem]
    intro wk hwk
    simp [noStep] at hwk

theorem assertCompleted_trainGe1 (ss : SimState) :
    trainGe1 (assertCompleted ss).acts := by
  intro wk hwk
  simp [assertCompleted] at hwk

theorem noStep_trainGe1 (ss : SimState) : trainGe1 (noStep ss).acts := by
  intro wk hwk
  simp [noStep] at hwk

theorem ite_trainGe1 (c : Prop) [Decidable c] (a b : StepRes)
    (ha : trainGe1 a.acts) (hb : trainGe1 b.acts) :
    trainGe1 (if c then a else b).acts := by
  split
  · exact ha
  · exact hb

theorem opFinish_trainGe1 (cfg : Conf) (w : World) (op : SearcherOp)
    (ss : SimState) : trainGe1 (opFinish cfg w op ss).acts := by
  unfold opFinish
  apply seqRes_trainGe1
  · exact ite_trainGe1 _ _ _ (noStep_trainGe1 ss)
      (checkpoint_trainGe1 cfg w false ss)
  · apply seqRes_trainGe1
    · exact ite_trainGe1 _ _ _ (noStep_trainGe1 _)
        (validate_trainGe1 cfg w (some op) _)
    · exact assertCompleted_trainGe1 _

theorem processOp_trainGe1 (cfg : Conf) (w : World) (op : SearcherOp)
    (ss : SimState) : trainGe1 (processOp cfg w op ss).acts := by
  unfold processOp
  apply seqRes_trainGe1
  · exact opLoop_trainGe1 cfg w op _
  · exact opFinish_trainGe1 cfg w op _

theorem runOps_trainGe1 (cfg : Conf) (w : World) (ops : List SearcherOp)
    (ss : SimState) : trainGe1 (runOps cfg w ops ss).acts := by
  induction ops generalizing ss with
  | nil =>
    intro wk hwk
    simp [runOps, noStep] at hwk
  | cons op rest ih =>
    unfold runOps
    apply seqRes_trainGe1
    · exact processOp_trainGe1 cfg w op ss
    · exact ih _

theorem initialVal_trainGe1 (cfg : Conf) (w : World) (ss : SimState) :
    trainGe1 (initialVal cfg w ss).acts := by
  unfold initialVal
  split
  · exact validate_trainGe1 cfg w none ss
  · intro wk hwk
    simp [noStep] at hwk

theorem runBody_trainGe1 (cfg : Conf) (w : World) (ops : List SearcherOp)
    (ss : SimState) : trainGe1 (runBody cfg w ops ss).acts := by
  unfold runBody
  apply seqRes_trainGe1
  · exact initialVal_trainGe1 cfg w ss
  · exact runOps_trainGe1 cfg w ops _

theorem handleExit_trainGe1 (cfg : Conf) (w : World) (ss : SimState) :
    trainGe1 (handleExit cfg w ss).acts := by
  unfold handleExit
  split
  · intro wk hwk
    simp [noStep] at hwk
  · exact checkpoint_trainGe1 cfg w true ss

theorem runSeq_trainGe1 (cfg : Conf) (w : World) (ops : List SearcherOp)
    (ss : SimState) : trainGe1 (runSeq cfg w ops ss).1 := by
  unfold runSeq
  dsimp only
  split
  · dsimp only
    intro wk hwk hkind
    simp only [List.mem_append] at hwk
    rcases hwk with hwk | hwk
    · exact runBody_trainGe1 cfg w ops ss wk hwk hkind
    · exact handleExit_trainGe1 cfg w _ wk hwk hkind
  · exact runBody_trainGe1 cfg w ops ss

/-! ### Claim C2: the size of an emitted Train chunk -/

/-- The state right before the do-some-training call of a loop iteration:
after the pause-to-validate and pause-to-checkpoint checks have run. -/
def afterChecks (cfg : Conf) (w : World) (op : SearcherOp)
    (ss : SimState) : SimState :=
  (ckptSlot cfg w (valSlot cfg w op ss).ss).ss

/-- C2: when neither the validation check nor the checkpoint check stops
the iteration, the loop emits exactly one Train action, whose num_batches
is max(1, min(batches_until_ckpt, batches_until_val,
batches_until_op_complete, scheduling_unit)) evaluated in the state
current at the call; that count is at least 1, and indeed every RUN_STEP
workload of every full run requests at least one batch. -/
theorem c2_train_chunk (cfg : Conf) (w : World) (op : SearcherOp)
    (ss : SimState) (rem : Int)
    (h1 : (valSlot cfg w op ss).stop = none)
    (h2 : (ckptSlot cfg w (valSlot cfg w op ss).ss).stop = none)
    (h3 : batchesUntilOpComplete cfg op (afterChecks cfg w op ss).st
      = .ok rem) :
    ((iteration cfg w op ss).acts
      = (valSlot cfg w op ss).acts
        ++ ((ckptSlot cfg w (valSlot cfg w op ss).ss).acts
          ++ [trainW (afterChecks cfg w op ss).st
                (max 1 (min (batches_until_ckpt cfg
                      (afterChecks cfg w op ss).st)
                  (min (batches_until_val cfg (afterChecks cfg w op ss).st)
                    (min rem cfg.scheduling_unit))))])) ∧
    (1 ≤ max 1 (min (batches_until_ckpt cfg (afterChecks cfg w op ss).st)
        (min (batches_until_val cfg (afterChecks cfg w op ss).st)
          (min rem cfg.scheduling_unit)))) ∧
    (∀ (ops : List SearcherOp) (ss0 : SimState),
      ∀ wk ∈ (runSeq cfg w ops ss0).1, wk.kind = Kind.RUN_STEP →
        1 ≤ wk.num_batches) := by
  have h3' : trainLenE cfg op (afterChecks cfg w op ss).st
      = .ok (max 1 (min (batches_until_ckpt cfg (afterChecks cfg w op ss).st)
          (min (batches_until_val cfg (afterChecks cfg w op ss).st)
            (min rem cfg.scheduling_unit)))) := by
    unfold trainLenE
    rw [h3]
    rfl
  refine ⟨?_, le_max_left 1 _, fun ops ss0 => runSeq_trainGe1 cfg w ops ss0⟩
  unfold iteration
  rw [seqRes_none _ _ h1]
  dsimp only
  rw [seqRes_none _ _ h2]
  dsimp only
  rw [show (ckptSlot cfg w (valSlot cfg w op ss).ss).ss
      = afterChecks cfg w op ss from rfl]
  rw [trainSlot_ok cfg w op _ _ h3', train_acts]

/-- Witness for C2 at the fresh state, where no check is due and the
10-batch operation with a 5-batch cadence yields a 5-batch chunk. -/
theorem c2_train_chunk_witness :
    (iteration cfgW wW opX (initSim 1)).acts
      = (valSlot cfgW wW opX (initSim 1)).acts
        ++ ((ckptSlot cfgW wW (valSlot cfgW wW opX (initSim 1)).ss).acts
          ++ [trainW (afterChecks cfgW wW opX (initSim 1)).st
                (max 1 (min (batches_until_ckpt cfgW
                      (afterChecks cfgW wW opX (initSim 1)).st)
                  (min (batches_until_val cfgW
                      (afterChecks cfgW wW opX (initSim 1)).st)
                    (min 10 cfgW.scheduling_unit))))]) :=
  (c2_train_chunk cfgW wW opX (initSim 1) 10 rfl rfl rfl).1

/-! ### Claim C4: ordering of validate and checkpoint -/

theorem seqRes_acts_eq (r : StepRes) (f : SimState → StepRes) :
    ∃ t, (seqRes r f).acts = r.acts ++ t := by
  cases hs : r.stop with
  | none =>
    rw [seqRes_none _ _ hs]
    exact ⟨(f r.ss).acts, rfl⟩
  | some s =>
    rw [seqRes_some _ _ s hs]
    exact ⟨[], (List.append_nil r.acts).symm⟩

theorem checkpoint_st (cfg : Conf) (w : World) (b : Bool) (ss : SimState) :
    (checkpoint cfg w b ss).ss.st = applyCkptStart ss.st := by
  simp only [checkpoint]
  split
  · rfl
  · split
    · rfl
    · rfl

theorem valFinish_ckpt_branch (cfg : Conf) (w : World) (wk : Workload)
    (r : Resp) (before : Option Int) (ss4 : SimState) :
    (valFinish cfg w wk r before ss4).ss.st.last_ckpt = ss4.st.last_ckpt
      ∨ ∃ x ∈ (valFinish cfg w wk r before ss4).acts,
          x.kind = Kind.CHECKPOINT_MODEL := by
  simp only [valFinish]
  split
  · exact Or.inl rfl
  · split
    · refine Or.inr ⟨ckptW (applyCkptStart ss4.st), ?_, rfl⟩
      apply List.mem_cons_of_mem
      rw [checkpoint_acts]
      simp
    · exact Or.inl rfl

theorem valAfterComp_ckpt_branch (cfg : Conf) (w : World) (wk : Workload)
    (r : Resp) (ss2 : SimState) :
    (valAfterComp cfg w wk r ss2).ss.st.last_ckpt = ss2.st.last_ckpt
      ∨ ∃ x ∈ (valAfterComp cfg w wk r ss2).acts,
          x.kind = Kind.CHECKPOINT_MODEL := by
  simp only [valAfterComp]
  rcases valFinish_ckpt_branch cfg w wk r
      (if qBestOf cfg ss2 then w.bestVal ss2.nBest else none)
      (setLastVal (bumpBest (qBestOf cfg ss2) ss2)) with h | h
  · left
    rw [h]
    unfold setLastVal
    rw [show ∀ y : SimState, ({ y with st := applyValResult y.st}
        : SimState).st = applyValResult y.st from fun y => rfl]
    rw [bumpBest_st]
    rfl
  · right
    exact h

theorem validate_ckpt_branch (cfg : Conf) (w : World)
    (op : Option SearcherOp) (ss : SimState) :
    (validate cfg w op ss).ss.st.last_ckpt = ss.st.last_ckpt
      ∨ ∃ x ∈ (validate cfg w op ss).acts,
          x.kind = Kind.CHECKPOINT_MODEL := by
  simp only [validate]
  split
  · exact Or.inl rfl
  · split
    · exact Or.inl rfl
    · rename_i ss2 h
      have hst := compFragment_st cfg op _ _ h
      rcases valAfterComp_ckpt_branch cfg w (valW ss.st) (w.resp ss.nResp)
          ss2 with h2 | h2
      · left
        rw [h2, hst]
      · right
        exact h2

/-- C4: mid-training (while the target is not reached), a due Validate is
emitted first in the loop iteration, and when the checkpoint cadence is
also due a Checkpoint action follows it in the same iteration (either the
policy-driven one nested in the validation or the due-driven one); once
the target is reached the order is reversed: opFinish emits a Checkpoint
first when last_ckpt differs from latest_batch, then a Validate when
last_val differs from latest_batch. -/
theorem c4_order_of_val_and_ckpt (cfg : Conf) (w : World) (op : SearcherOp)
    (ss : SimState) :
    (batches_until_val cfg ss.st < 1 →
      ∃ rest, (iteration cfg w op ss).acts = valW ss.st :: rest) ∧
    (batches_until_val cfg ss.st < 1 → batches_until_ckpt cfg ss.st < 1 →
      (validate cfg w (some op) ss).stop = none →
      ∃ rest, (iteration cfg w op ss).acts = valW ss.st :: rest ∧
        ∃ x ∈ rest, x.kind = Kind.CHECKPOINT_MODEL) ∧
    (¬ checkpoint_is_current ss.st →
      ∃ rest, (opFinish cfg w op ss).acts
        = ckptW (applyCkptStart ss.st) :: rest) ∧
    (checkpoint_is_current ss.st → ¬ validation_is_current ss.st →
      ∃ rest, (opFinish cfg w op ss).acts = valW ss.st :: rest) ∧
    (¬ checkpoint_is_current ss.st → ¬ validation_is_current ss.st →
      (checkpoint cfg w false ss).stop = none →
      ∃ rest, (opFinish cfg w op ss).acts
        = ckptW (applyCkptStart ss.st) :: valW ss.st :: rest) := by
  have hvs : batches_until_val cfg ss.st < 1 →
      valSlot cfg w op ss = validate cfg w (some op) ss := by
    intro hdue
    unfold valSlot
    rw [if_pos hdue]
  refine ⟨?_, ?_, ?_, ?_, ?_⟩
  · intro hdue
    unfold iteration
    rw [hvs hdue]
    obtain ⟨t, ht⟩ := seqRes_acts_eq (validate cfg w (some op) ss)
      (fun s1 => seqRes (ckptSlot cfg w s1) (fun s2 => trainSlot cfg w op s2))
    obtain ⟨tail, htail⟩ := validate_acts cfg w (some op) ss
    rw [ht, htail]
    exact ⟨tail ++ t, rfl⟩
  · intro hdueV hdueC hstop
    unfold iteration
    rw [hvs hdueV]
    rw [seqRes_none _ _ hstop]
    dsimp only
    obtain ⟨tail, htail⟩ := validate_acts cfg w (some op) ss
    rw [htail]
    rcases validate_ckpt_branch cfg w (some op) ss with hkeep | ⟨x, hx, hxk⟩
    · have hdueC2 : batches_until_ckpt cfg
          (validate cfg w (some op) ss).ss.st < 1 := by
        unfold batches_until_ckpt at hdueC ⊢
        rw [hkeep, validate_latest]
        exact hdueC
      have hck : ckptSlot cfg w (validate cfg w (some op) ss).ss
          = checkpoint cfg w false (validate cfg w (some op) ss).ss := by
        unfold ckptSlot
        rw [if_pos hdueC2]
      obtain ⟨t2, ht2⟩ := seqRes_acts_eq
        (ckptSlot cfg w (validate cfg w (some op) ss).ss)
        (fun s2 => trainSlot cfg w op s2)
      rw [ht2, hck, checkpoint_acts]
      refine ⟨tail ++ (ckptW (applyCkptStart
        (validate cfg w (some op) ss).ss.st) :: t2), rfl, ?_⟩
      refine ⟨ckptW (applyCkptStart (validate cfg w (some op) ss).ss.st),
        ?_, rfl⟩
      simp
    · rw [htail] at hx
      rcases List.mem_cons.mp hx with hx0 | hx1
      · rw [hx0] at hxk
        simp [valW] at hxk
      · obtain ⟨t2, ht2⟩ := seqRes_acts_eq
          (ckptSlot cfg w (validate cfg w (some op) ss).ss)
          (fun s2 => trainSlot cfg w op s2)
        refine ⟨tail ++ (ckptSlot cfg w
          (validate cfg w (some op) ss).ss).acts ++ t2, ?_, ?_⟩
        · rw [ht2]
          simp
        · refine ⟨x, ?_, hxk⟩
          simp [hx1]
  · intro hnc
    unfold opFinish
    rw [if_neg hnc]
    obtain ⟨t, ht⟩ := seqRes_acts_eq (checkpoint cfg w false ss) _
    rw [ht, checkpoint_acts]
    exact ⟨t, rfl⟩
  · intro hc hnv
    unfold opFinish
    rw [if_pos hc]
    have hns : (noStep ss).stop = none := rfl
    rw [seqRes_none _ _ hns]
    dsimp only [noStep]
    rw [if_neg hnv]
    obtain ⟨t, ht⟩ := seqRes_acts_eq (validate cfg w (some op) ss) _
    obtain ⟨tail, htail⟩ := validate_acts cfg w (some op) ss
    rw [ht, htail]
    exact ⟨tail ++ t, rfl⟩
  · intro hnc hnv hstop
    unfold opFinish
    rw [if_neg hnc]
    rw [seqRes_none _ _ hstop]
    dsimp only
    rw [checkpoint_acts]
    have hnv2 : ¬ validation_is_current
        (checkpoint cfg w false ss).ss.st = true := by
      rw [checkpoint_st]
      exact hnv
    rw [if_neg hnv2]
    obtain ⟨t, ht⟩ := seqRes_acts_eq
      (validate cfg w (some op) (checkpoint cfg w false ss).ss) _
    obtain ⟨tail, htail⟩ := validate_acts cfg w (some op)
      (checkpoint cfg w false ss).ss
    rw [ht, htail]
    refine ⟨tail ++ t, ?_⟩
    have hvw : valW (checkpoint cfg w false ss).ss.st = valW ss.st := by
      rw [checkpoint_st]
      simp [valW, applyCkptStart]
    rw [hvw]
    rfl

/-- Witness for C4 at the concrete state with neither checkpoint nor
validation current: checkpoint is emitted first, then validate. -/
theorem c4_order_of_val_and_ckpt_witness :
    ∃ rest, (opFinish cfgX wW opX ssX).acts
      = ckptW (applyCkptStart ssX.st) :: valW ssX.st :: rest :=
  (c4_order_of_val_and_ckpt cfgX wW opX ssX).2.2.2.2 (by decide) (by decide)
    rfl

/-! ### How the operation-completion count evolves -/

theorem checkpoint_comps (cfg : Conf) (w : World) (b : Bool)
    (ss : SimState) : (checkpoint cfg w b ss).ss.comps = ss.comps := by
  simp only [checkpoint]
  split
  · rfl
  · split
    · rfl
    · rfl

theorem train_comps (cfg : Conf) (w : World) (nb : Int) (op : SearcherOp)
    (ss : SimState) : (train cfg w nb op ss).ss.comps = ss.comps := by
  simp only [train]
  split
  · rfl
  · split
    · rfl
    · split
      · rfl
      · rfl

theorem valFinish_comps (cfg : Conf) (w : World) (wk : Workload) (r : Resp)
    (before : Option Int) (ss4 : SimState) :
    (valFinish cfg w wk r before ss4).ss.comps = ss4.comps := by
  simp only [valFinish]
  split
  · rfl
  · split
    · exact checkpoint_comps cfg w false ss4
    · rfl

theorem valAfterComp_comps (cfg : Conf) (w : World) (wk : Workload)
    (r : Resp) (ss2 : SimState) :
    (valAfterComp cfg w wk r ss2).ss.comps = ss2.comps := by
  simp only [valAfterComp]
  rw [valFinish_comps]
  unfold setLastVal
  rw [show ∀ y : SimState, ({ y with st := applyValResult y.st}
      : SimState).comps = y.comps from fun y => rfl]
  rw [bumpBest_comps]

theorem compFragment_some_ok (cfg : Conf) (o : SearcherOp) (ss : SimState)
    (rem : Int) (h : batchesUntilOpComplete cfg o ss.st = .ok rem) :
    compFragment cfg (some o) ss
      = .ok (if rem < 1 then { ss with comps := ss.comps + 1 } else ss) := by
  unfold compFragment
  dsimp only
  rw [h]
  rfl

/-- The state of batchesUntilOpComplete depends only on latest_batch. -/
theorem buoc_congr (cfg : Conf) (o : SearcherOp) (s s' : SavableState)
    (h : s.latest_batch = s'.latest_batch) :
    batchesUntilOpComplete cfg o s = batchesUntilOpComplete cfg o s' := by
  unfold batchesUntilOpComplete
  rw [h]

/-- A mid-training validation (with at least one batch still owed to the
operation) never calls complete. -/
theorem validate_comps_hi (cfg : Conf) (w : World) (o : SearcherOp)
    (ss : SimState) (rem : Int)
    (h : batchesUntilOpComplete cfg o ss.st = .ok rem) (hrem : ¬ rem < 1) :
    (validate cfg w (some o) ss).ss.comps = ss.comps := by
  have h' : batchesUntilOpComplete cfg o
      ({ ss with nResp := ss.nResp + 1 } : SimState).st = .ok rem := h
  by_cases hA : (w.resp ss.nResp).exited_reason = some ExitedReason.INVALID_HP
  · simp only [validate]
    rw [if_pos hA]
  · simp only [validate]
    rw [if_neg hA, compFragment_some_ok cfg o _ rem h', if_neg hrem]
    dsimp only
    rw [valAfterComp_comps]

/-- A validation that runs to completion with the operation's target
reached calls complete exactly once. -/
theorem validate_comps_lo (cfg : Conf) (w : World) (o : SearcherOp)
    (ss : SimState) (rem : Int)
    (h : batchesUntilOpComplete cfg o ss.st = .ok rem) (hrem : rem < 1)
    (hstop : (validate cfg w (some o) ss).stop = none) :
    (validate cfg w (some o) ss).ss.comps = ss.comps + 1 := by
  have h' : batchesUntilOpComplete cfg o
      ({ ss with nResp := ss.nResp + 1 } : SimState).st = .ok rem := h
  by_cases hA : (w.resp ss.nResp).exited_reason = some ExitedReason.INVALID_HP
  · exfalso
    simp only [validate] at hstop
    rw [if_pos hA] at hstop
    cases hstop
  · simp only [validate]
    rw [if_neg hA, compFragment_some_ok cfg o _ rem h', if_pos hrem]
    dsimp only
    rw [valAfterComp_comps]

theorem valSlot_comps (cfg : Conf) (w : World) (op : SearcherOp)
    (ss : SimState) (rem : Int)
    (h : batchesUntilOpComplete cfg op ss.st = .ok rem) (hrem : 0 < rem) :
    (valSlot cfg w op ss).ss.comps = ss.comps := by
  unfold valSlot
  split
  · exact validate_comps_hi cfg w op ss rem h (by omega)
  · rfl

theorem trainSlot_comps (cfg : Conf) (w : World) (op : SearcherOp)
    (ss : SimState) : (trainSlot cfg w op ss).ss.comps = ss.comps := by
  cases h : trainLenE cfg op ss.st with
  | error e => rw [trainSlot_err cfg w op ss e h]
  | ok nb =>
    rw [trainSlot_ok cfg w op ss nb h]
    exact train_comps cfg w nb op ss

theorem ckptSlot_comps (cfg : Conf) (w : World) (ss : SimState) :
    (ckptSlot cfg w ss).ss.comps = ss.comps := by
  unfold ckptSlot
  split
  · exact checkpoint_comps cfg w false ss
  · rfl

theorem valSlot_st_latest (cfg : Conf) (w : World) (op : SearcherOp)
    (ss : SimState) :
    (valSlot cfg w op ss).ss.st.latest_batch = ss.st.latest_batch :=
  valSlot_latest cfg w op ss

theorem iteration_comps (cfg : Conf) (w : World) (op : SearcherOp)
    (ss : SimState) (rem : Int)
    (h : batchesUntilOpComplete cfg op ss.st = .ok rem) (hrem : 0 < rem) :
    (iteration cfg w op ss).ss.comps = ss.comps := by
  unfold iteration
  have hv := valSlot_comps cfg w op ss rem h hrem
  cases h1 : (valSlot cfg w op ss).stop with
  | some s =>
    rw [seqRes_some _ _ s h1]
    exact hv
  | none =>
    rw [seqRes_none _ _ h1]
    dsimp only
    cases h2 : (ckptSlot cfg w (valSlot cfg w op ss).ss).stop with
    | some s =>
      rw [seqRes_some _ _ s h2]
      rw [ckptSlot_comps]
      exact hv
    | none =>
      rw [seqRes_none _ _ h2]
      dsimp only
      rw [trainSlot_comps, ckptSlot_comps]
      exact hv

theorem opLoop_comps (cfg : Conf) (w : World) (op : SearcherOp)
    (ss : SimState) : (opLoop cfg w op ss).ss.comps = ss.comps := by
  apply opLoop.induct cfg w op
    (fun x => (opLoop cfg w op x).ss.comps = x.comps)
  · intro x e h
    rw [opLoop_err cfg w op x e h]
  · intro x rem h hrem s hit
    rw [opLoop_stop cfg w op x rem s h hrem hit]
    exact iteration_comps cfg w op x rem h hrem
  · intro x rem h hrem hit ih
    rw [opLoop_cont cfg w op x rem h hrem hit]
    dsimp only
    rw [ih]
    exact iteration_comps cfg w op x rem h hrem
  · intro x rem h hrem
    rw [opLoop_done cfg w op x rem h hrem]
    rfl

/-- When the while loop finishes normally, the operation's remaining batch
count is no longer positive. -/
theorem opLoop_none_rem (cfg : Conf) (w : World) (op : SearcherOp)
    (ss : SimState) (hstop : (opLoop cfg w op ss).stop = none) :
    ∃ rem, batchesUntilOpComplete cfg op (opLoop cfg w op ss).ss.st = .ok rem
      ∧ rem ≤ 0 := by
  induction ss using opLoop.induct cfg w op with
  | case1 x e h =>
    rw [opLoop_err cfg w op x e h] at hstop
    cases hstop
  | case2 x rem h hrem s hit =>
    rw [opLoop_stop cfg w op x rem s h hrem hit] at hstop
    rw [hit] at hstop
    cases hstop
  | case3 x rem h hrem hit ih =>
    rw [opLoop_cont cfg w op x rem h hrem hit] at hstop ⊢
    dsimp only at hstop ⊢
    exact ih hstop
  | case4 x rem h hrem =>
    rw [opLoop_done cfg w op x rem h hrem]
    exact ⟨rem, h, by omega⟩

/-! ### Claim C6: complete is called exactly once per finished op -/

theorem opFinishInner_comps (cfg : Conf) (w : World) (op : SearcherOp)
    (s1 : SimState) (rem : Int) (hc : s1.comps = 0)
    (h : batchesUntilOpComplete cfg op s1.st = .ok rem) (hle : rem ≤ 0)
    (hstop : (seqRes (if validation_is_current s1.st then noStep s1
        else validate cfg w (some op) s1)
      (fun s2 => assertCompleted s2)).stop = none) :
    (seqRes (if validation_is_current s1.st then noStep s1
        else validate cfg w (some op) s1)
      (fun s2 => assertCompleted s2)).ss.comps = 1 := by
  by_cases hvc : validation_is_current s1.st = true
  · rw [if_pos hvc] at hstop
    have hns : (noStep s1).stop = none := rfl
    rw [seqRes_none _ _ hns] at hstop
    dsimp only [noStep, assertCompleted] at hstop
    rw [if_pos hc] at hstop
    cases hstop
  · rw [if_neg hvc] at hstop ⊢
    cases hv : (validate cfg w (some op) s1).stop with
    | some s =>
      rw [seqRes_some _ _ s hv] at hstop
      rw [hv] at hstop
      cases hstop
    | none =>
      rw [seqRes_none _ _ hv]
      dsimp only [assertCompleted]
      have hcomp := validate_comps_lo cfg w op s1 rem h (by omega) hv
      rw [hcomp, hc]

theorem opFinish_comps_of_none (cfg : Conf) (w : World) (op : SearcherOp)
    (ss : SimState) (rem : Int) (hc : ss.comps = 0)
    (h : batchesUntilOpComplete cfg op ss.st = .ok rem) (hle : rem ≤ 0)
    (hstop : (opFinish cfg w op ss).stop = none) :
    (opFinish cfg w op ss).ss.comps = 1 := by
  unfold opFinish at hstop ⊢
  have hcomps1 : (if checkpoint_is_current ss.st then noStep ss
      else checkpoint cfg w false ss).ss.comps = 0 := by
    split
    · exact hc
    · rw [checkpoint_comps]
      exact hc
  have hlat1 : (if checkpoint_is_current ss.st then noStep ss
      else checkpoint cfg w false ss).ss.st.latest_batch
      = ss.st.latest_batch := by
    split
    · rfl
    · exact checkpoint_latest cfg w false ss
  have h1 : batchesUntilOpComplete cfg op
      (if checkpoint_is_current ss.st then noStep ss
        else checkpoint cfg w false ss).ss.st = .ok rem := by
    rw [buoc_congr cfg op _ ss.st hlat1]
    exact h
  cases hs1 : (if checkpoint_is_current ss.st then noStep ss
      else checkpoint cfg w false ss).stop with
  | some s =>
    rw [seqRes_some _ _ s hs1] at hstop
    rw [hs1] at hstop
    cases hstop
  | none =>
    rw [seqRes_none _ _ hs1] at hstop ⊢
    dsimp only at hstop ⊢
    exact opFinishInner_comps cfg w op _ rem hcomps1 h1 hle hstop

/-- C6: when processing an operation ends without any stop (so the driver
moves on to the next operation), complete was called on it exactly once;
an operation that was never completed never lets the driver proceed, and
when the run was not aborted by ShouldExit or a ValueError, the cause is
precisely the op-was-never-completed assertion. -/
theorem c6_complete_called_exactly_once (cfg : Conf) (w : World)
    (op : SearcherOp) (ss : SimState) :
    ((processOp cfg w op ss).stop = none →
      (processOp cfg w op ss).ss.comps = 1) ∧
    ((processOp cfg w op ss).ss.comps = 0 →
      ¬ (processOp cfg w op ss).stop = none) ∧
    ((processOp cfg w op ss).ss.comps = 0 →
      (processOp cfg w op ss).stop ≠ some Stop.exitEx →
      (processOp cfg w op ss).stop ≠ some Stop.valueErr →
      (processOp cfg w op ss).stop = some Stop.assertErr) := by
  have main : (processOp cfg w op ss).stop = none →
      (processOp cfg w op ss).ss.comps = 1 := by
    intro hstop
    unfold processOp at hstop ⊢
    cases hl : (opLoop cfg w op { ss with comps := 0 }).stop with
    | some s =>
      rw [seqRes_some _ _ s hl] at hstop
      rw [hl] at hstop
      cases hstop
    | none =>
      rw [seqRes_none _ _ hl] at hstop ⊢
      dsimp only at hstop ⊢
      obtain ⟨rem, hbr, hle⟩ := opLoop_none_rem cfg w op _ hl
      have hc : (opLoop cfg w op { ss with comps := 0 }).ss.comps = 0 := by
        rw [opLoop_comps]
      exact opFinish_comps_of_none cfg w op _ rem hc hbr hle hstop
  refine ⟨main, ?_, ?_⟩
  · intro hc0 hstop
    rw [main hstop] at hc0
    exact one_ne_zero hc0
  · intro hc0 hne hve
    cases hs : (processOp cfg w op ss).stop with
    | none =>
      rw [main hs] at hc0
      exact absurd hc0 one_ne_zero
    | some s =>
      cases s with
      | exitEx => exact absurd hs hne
      | valueErr => exact absurd hs hve
      | assertErr => rfl

/-- Concrete execution of the 10-batch operation from the fresh state:
two loop iterations, then the finish code, with no stop.  The loop is
defined by well-founded recursion, so its value is computed by chaining
its unfolding equations. -/
theorem processOp_cfgW_stop :
    (processOp cfgW wW opX (initSim 1)).stop = none := by
  have e1 := opLoop_cont cfgW wW opX { initSim 1 with comps := 0 } 10 rfl
    (by decide) rfl
  have e2 := opLoop_cont cfgW wW opX
    (iteration cfgW wW opX { initSim 1 with comps := 0 }).ss 5 rfl
    (by decide) rfl
  have e3 := opLoop_done cfgW wW opX
    (iteration cfgW wW opX
      (iteration cfgW wW opX { initSim 1 with comps := 0 }).ss).ss 0 rfl
    (by decide)
  unfold processOp
  rw [e1, e2, e3]
  rfl

/-- Witness for C6: the concrete 10-batch run finishes its operation with
exactly one completion. -/
theorem c6_complete_called_exactly_once_witness :
    (processOp cfgW wW opX (initSim 1)).stop = none ∧
    (processOp cfgW wW opX (initSim 1)).ss.comps = 1 :=
  ⟨processOp_cfgW_stop,
    (c6_complete_called_exactly_once cfgW wW opX (initSim 1)).1
      processOp_cfgW_stop⟩

/-! ### Response accounting: one response per emitted workload -/

theorem compFragment_cases (cfg : Conf) (op : Option SearcherOp)
    (ss ss2 : SimState) (h : compFragment cfg op ss = .ok ss2) :
    ss2 = ss ∨ ss2 = { ss with comps := ss.comps + 1 } := by
  cases op with
  | none =>
    simp only [compFragment] at h
    cases h
    exact Or.inl rfl
  | some o =>
    simp only [compFragment, Except.map] at h
    cases hb : batchesUntilOpComplete cfg o ss.st with
    | error e => rw [hb] at h; cases h
    | ok rem =>
      rw [hb] at h
      simp only at h
      split at h
      · cases h
        exact Or.inr rfl
      · cases h
        exact Or.inl rfl

/-- The number of responses consumed equals the number of workloads
emitted. -/
def RespCount (ss : SimState) (r : StepRes) : Prop :=
  r.ss.nResp = ss.nResp + r.acts.length

/-- An INVALID_HP response to an emitted RUN_STEP workload makes that
workload the last one of the piece and the piece end in ShouldExit. -/
def HPLast (w : World) (ss : SimState) (r : StepRes) : Prop :=
  ∀ (k : Nat) (wk : Workload), r.acts[k]? = some wk →
    wk.kind = Kind.RUN_STEP →
    (w.resp (ss.nResp + k)).exited_reason = some ExitedReason.INVALID_HP →
    k + 1 = r.acts.length ∧ r.stop = some Stop.exitEx

theorem seqRes_respCount (ss : SimState) (r : StepRes)
    (f : SimState → StepRes) (hr : RespCount ss r)
    (hf : RespCount r.ss (f r.ss)) : RespCount ss (seqRes r f) := by
  unfold RespCount at hr hf ⊢
  cases hs : r.stop with
  | none =>
    rw [seqRes_none _ _ hs]
    dsimp only
    rw [List.length_append]
    omega
  | some s =>
    rw [seqRes_some _ _ s hs]
    exact hr

theorem seqRes_hplast (w : World) (ss : SimState) (r : StepRes)
    (f : SimState → StepRes) (hrc : RespCount ss r) (hr : HPLast w ss r)
    (hf : HPLast w r.ss (f r.ss)) : HPLast w ss (seqRes r f) := by
  cases hs : r.stop with
  | some s =>
    rw [seqRes_some _ _ s hs]
    exact hr
  | none =>
    rw [seqRes_none _ _ hs]
    intro k wk hk hkind hresp
    dsimp only at hk ⊢
    by_cases hlt : k < r.acts.length
    · rw [List.getElem?_append_left hlt] at hk
      have hcontra := (hr k wk hk hkind hresp).2
      rw [hs] at hcontra
      cases hcontra
    · push_neg at hlt
      rw [List.getElem?_append_right hlt] at hk
      have hidx : r.ss.nResp + (k - r.acts.length) = ss.nResp + k := by
        unfold RespCount at hrc
        omega
      have hresp2 : (w.resp (r.ss.nResp
          + (k - r.acts.length))).exited_reason
          = some ExitedReason.INVALID_HP := by
        rw [hidx]
        exact hresp
      have hmain := hf (k - r.acts.length) wk hk hkind hresp2
      constructor
      · rw [List.length_append]
        omega
      · exact hmain.2

theorem noStep_respCount (ss : SimState) : RespCount ss (noStep ss) := by
  unfold RespCount noStep
  simp

theorem noStep_hplast (w : World) (ss : SimState) :
    HPLast w ss (noStep ss) := by
  intro k wk hk
  simp [noStep] at hk

theorem assertCompleted_respCount (ss : SimState) :
    RespCount ss (assertCompleted ss) := by
  unfold RespCount assertCompleted
  simp

theorem assertCompleted_hplast (w : World) (ss : SimState) :
    HPLast w ss (assertCompleted ss) := by
  intro k wk hk
  simp [assertCompleted] at hk

theorem train_respCount (cfg : Conf) (w : World) (nb : Int)
    (op : SearcherOp) (ss : SimState) :
    RespCount ss (train cfg w nb op ss) := by
  unfold RespCount
  rw [train_acts]
  simp only [train]
  split
  · simp
  · split
    · simp
    · split
      · simp
      · simp [checkPreempt]

theorem checkpoint_respCount (cfg : Conf) (w : World) (b : Bool)
    (ss : SimState) : RespCount ss (checkpoint cfg w b ss) := by
  unfold RespCount
  rw [checkpoint_acts]
  simp only [checkpoint]
  split
  · simp
  · split
    · simp
    · simp [checkPreempt]

theorem valFinish_resp (cfg : Conf) (w : World) (wk : Workload) (r : Resp)
    (before : Option Int) (ss4 : SimState) :
    (valFinish cfg w wk r before ss4).ss.nResp + 1
      = ss4.nResp + (valFinish cfg w wk r before ss4).acts.length := by
  simp only [valFinish]
  split
  · simp
  · split
    · have hc := checkpoint_respCount cfg w false ss4
      unfold RespCount at hc
      rw [checkpoint_acts] at hc
      simp only [List.length_singleton] at hc
      rw [checkpoint_acts]
      simp
      omega
    · simp [checkPreempt]

theorem valAfterComp_resp (cfg : Conf) (w : World) (wk : Workload)
    (r : Resp) (ss2 : SimState) :
    (valAfterComp cfg w wk r ss2).ss.nResp + 1
      = ss2.nResp + (valAfterComp cfg w wk r ss2).acts.length := by
  simp only [valAfterComp]
  have hv := valFinish_resp cfg w wk r
    (if qBestOf cfg ss2 then w.bestVal ss2.nBest else none)
    (setLastVal (bumpBest (qBestOf cfg ss2) ss2))
  have hn : (setLastVal (bumpBest (qBestOf cfg ss2) ss2)).nResp
      = ss2.nResp := by
    unfold setLastVal
    rw [show ∀ y : SimState, ({ y with st := applyValResult y.st}
        : SimState).nResp = y.nResp from fun y => rfl]
    rw [bumpBest_nResp]
  rw [hn] at hv
  exact hv

theorem validate_respCount (cfg : Conf) (w : World) (op : Option SearcherOp)
    (ss : SimState) : RespCount ss (validate cfg w op ss) := by
  unfold RespCount
  simp only [validate]
  split
  · simp
  · split
    · simp
    · rename_i ss2 h
      rcases compFragment_cases cfg op _ ss2 h with h2 | h2
      · have hv := valAfterComp_resp cfg w (valW ss.st) (w.resp ss.nResp) ss2
        have hn : ss2.nResp = ss.nResp + 1 := by
          rw [h2]
        rw [hn] at hv
        omega
      · have hv := valAfterComp_resp cfg w (valW ss.st) (w.resp ss.nResp) ss2
        have hn : ss2.nResp = ss.nResp + 1 := by
          rw [h2]
        rw [hn] at hv
        omega

theorem singleton_hplast_of_no_run (w : World) (ss : SimState)
    (r : StepRes) (hnr : ∀ x ∈ r.acts, x.kind ≠ Kind.RUN_STEP) :
    HPLast w ss r := by
  intro k wk hk hkind
  exact absurd hkind (hnr wk (List.getElem?_mem hk))

theorem validate_hplast (w : World) (cfg : Conf) (op : Option SearcherOp)
    (ss : SimState) : HPLast w ss (validate cfg w op ss) :=
  singleton_hplast_of_no_run w ss _ (validate_no_run cfg w op ss)

theorem checkpoint_hplast (w : World) (cfg : Conf) (b : Bool)
    (ss : SimState) : HPLast w ss (checkpoint cfg w b ss) :=
  singleton_hplast_of_no_run w ss _ (checkpoint_no_run cfg w b ss)

/-- The train method itself: an INVALID_HP response makes its single
workload the last and raises ShouldExit. -/
theorem train_hplast (w : World) (cfg : Conf) (nb : Int) (op : SearcherOp)
    (ss : SimState) : HPLast w ss (train cfg w nb op ss) := by
  intro k wk hk hkind hresp
  rw [train_acts] at hk
  cases k with
  | zero =>
    constructor
    · rw [train_acts]
      rfl
    · simp only [Nat.add_zero] at hresp
      simp only [train]
      rw [if_pos hresp]
  | succ n => simp at hk

theorem ite_respCount (c : Prop) [Decidable c] (ss : SimState)
    (a b : StepRes) (ha : RespCount ss a) (hb : RespCount ss b) :
    RespCount ss (if c then a else b) := by
  split
  · exact ha
  · exact hb

theorem ite_hplast (c : Prop) [Decidable c] (w : World) (ss : SimState)
    (a b : StepRes) (ha : HPLast w ss a) (hb : HPLast w ss b) :
    HPLast w ss (if c then a else b) := by
  split
  · exact ha
  · exact hb

theorem valSlot_respCount (cfg : Conf) (w : World) (op : SearcherOp)
    (ss : SimState) : RespCount ss (valSlot cfg w op ss) := by
  unfold valSlot
  exact ite_respCount _ ss _ _ (validate_respCount cfg w (some op) ss)
    (noStep_respCount ss)

theorem valSlot_hplast (cfg : Conf) (w : World) (op : SearcherOp)
    (ss : SimState) : HPLast w ss (valSlot cfg w op ss) := by
  unfold valSlot
  exact ite_hplast _ w ss _ _ (validate_hplast w cfg (some op) ss)
    (noStep_hplast w ss)

theorem ckptSlot_respCount (cfg : Conf) (w : World) (ss : SimState) :
    RespCount ss (ckptSlot cfg w ss) := by
  unfold ckptSlot
  exact ite_respCount _ ss _ _ (checkpoint_respCount cfg w false ss)
    (noStep_respCount ss)

theorem ckptSlot_hplast (cfg : Conf) (w : World) (ss : SimState) :
    HPLast w ss (ckptSlot cfg w ss) := by
  unfold ckptSlot
  exact ite_hplast _ w ss _ _ (checkpoint_hplast w cfg false ss)
    (noStep_hplast w ss)

theorem trainSlot_respCount (cfg : Conf) (w : World) (op : SearcherOp)
    (ss : SimState) : RespCount ss (trainSlot cfg w op ss) := by
  cases h : trainLenE cfg op ss.st with
  | error e =>
    rw [trainSlot_err cfg w op ss e h]
    unfold RespCount
    simp
  | ok nb =>
    rw [trainSlot_ok cfg w op ss nb h]
    exact train_respCount cfg w nb op ss

theorem trainSlot_hplast (cfg : Conf) (w : World) (op : SearcherOp)
    (ss : SimState) : HPLast w ss (trainSlot cfg w op ss) := by
  cases h : trainLenE cfg op ss.st with
  | error e =>
    rw [trainSlot_err cfg w op ss e h]
    intro k wk hk
    simp at hk
  | ok nb =>
    rw [trainSlot_ok cfg w op ss nb h]
    exact train_hplast w cfg nb op ss

theorem iteration_respCount (cfg : Conf) (w : World) (op : SearcherOp)
    (ss : SimState) : RespCount ss (iteration cfg w op ss) := by
  unfold iteration
  apply seqRes_respCount ss _ _ (valSlot_respCount cfg w op ss)
  apply seqRes_respCount _ _ _ (ckptSlot_respCount cfg w _)
  exact trainSlot_respCount cfg w op _

theorem iteration_hplast (cfg : Conf) (w : World) (op : SearcherOp)
    (ss : SimState) : HPLast w ss (iteration cfg w op ss) := by
  unfold iteration
  apply seqRes_hplast w ss _ _ (valSlot_respCount cfg w op ss)
    (valSlot_hplast cfg w op ss)
  apply seqRes_hplast w _ _ _ (ckptSlot_respCount cfg w _)
    (ckptSlot_hplast cfg w _)
  exact trainSlot_hplast cfg w op _

theorem opLoop_respCount (cfg : Conf) (w : World) (op : SearcherOp)
    (ss : SimState) : RespCount ss (opLoop cfg w op ss) := by
  induction ss using opLoop.induct cfg w op with
  | case1 x e h =>
    rw [opLoop_err cfg w op x e h]
    unfold RespCount
    simp
  | case2 x rem h hrem s hit =>
    rw [opLoop_stop cfg w op x rem s h hrem hit]
    exact iteration_respCount cfg w op x
  | case3 x rem h hrem hit ih =>
    rw [opLoop_cont cfg w op x rem h hrem hit]
    rw [← seqRes_none (iteration cfg w op x)
      (fun s1 => opLoop cfg w op s1) hit]
    exact seqRes_respCount x _ _ (iteration_respCount cfg w op x) ih
  | case4 x rem h hrem =>
    rw [opLoop_done cfg w op x rem h hrem]
    exact noStep_respCount x

theorem opLoop_hplast (cfg : Conf) (w : World) (op : SearcherOp)
    (ss : SimState) : HPLast w ss (opLoop cfg w op ss) := by
  induction ss using opLoop.induct cfg w op with
  | case1 x e h =>
    rw [opLoop_err cfg w op x e h]
    intro k wk hk
    simp at hk
  | case2 x rem h hrem s hit =>
    rw [opLoop_stop cfg w op x rem s h hrem hit]
    exact iteration_hplast cfg w op x
  | case3 x rem h hrem hit ih =>
    rw [opLoop_cont cfg w op x rem h hrem hit]
    rw [← seqRes_none (iteration cfg w op x)
      (fun s1 => opLoop cfg w op s1) hit]
    exact seqRes_hplast w x _ _ (iteration_respCount cfg w op x)
      (iteration_hplast cfg w op x) ih
  | case4 x rem h hrem =>
    rw [opLoop_done cfg w op x rem h hrem]
    exact noStep_hplast w x

theorem opFinish_respCount (cfg : Conf) (w : World) (op : SearcherOp)
    (ss : SimState) : RespCount ss (opFinish cfg w op ss) := by
  unfold opFinish
  apply seqRes_respCount ss _ _
    (ite_respCount _ ss _ _ (noStep_respCount ss)
      (checkpoint_respCount cfg w false ss))
  apply seqRes_respCount _ _ _
    (ite_respCount _ _ _ _ (noStep_respCount _)
      (validate_respCount cfg w (some op) _))
  exact assertCompleted_respCount _

theorem opFinish_hplast (cfg : Conf) (w : World) (op : SearcherOp)
    (ss : SimState) : HPLast w ss (opFinish cfg w op ss) := by
  unfold opFinish
  apply seqRes_hplast w ss _ _
    (ite_respCount _ ss _ _ (noStep_respCount ss)
      (checkpoint_respCount cfg w false ss))
    (ite_hplast _ w ss _ _ (noStep_hplast w ss)
      (checkpoint_hplast w cfg false ss))
  apply seqRes_hplast w _ _ _
    (ite_respCount _ _ _ _ (noStep_respCount _)
      (validate_respCount cfg w (some op) _))
    (ite_hplast _ w _ _ _ (noStep_hplast w _)
      (validate_hplast w cfg (some op) _))
  exact assertCompleted_hplast w _

theorem processOp_respCount (cfg : Conf) (w : World) (op : SearcherOp)
    (ss : SimState) : RespCount ss (processOp cfg w op ss) := by
  unfold processOp
  have h0 : RespCount { ss with comps := 0 }
      (seqRes (opLoop cfg w op { ss with comps := 0 })
        (fun s1 => opFinish cfg w op s1)) := by
    apply seqRes_respCount _ _ _ (opLoop_respCount cfg w op _)
    exact opFinish_respCount cfg w op _
  exact h0

theorem processOp_hplast (cfg : Conf) (w : World) (op : SearcherOp)
    (ss : SimState) : HPLast w ss (processOp cfg w op ss) := by
  unfold processOp
  have h0 : HPLast w { ss with comps := 0 }
      (seqRes (opLoop cfg w op { ss with comps := 0 })
        (fun s1 => opFinish cfg w op s1)) := by
    apply seqRes_hplast w _ _ _ (opLoop_respCount cfg w op _)
      (opLoop_hplast cfg w op _)
    exact opFinish_hplast cfg w op _
  exact h0

theorem runOps_respCount (cfg : Conf) (w : World) (ops : List SearcherOp)
    (ss : SimState) : RespCount ss (runOps cfg w ops ss) := by
  induction ops generalizing ss with
  | nil => exact noStep_respCount ss
  | cons op rest ih =>
    unfold runOps
    apply seqRes_respCount ss _ _ (processOp_respCount cfg w op ss)
    exact ih _

theorem runOps_hplast (cfg : Conf) (w : World) (ops : List SearcherOp)
    (ss : SimState) : HPLast w ss (runOps cfg w ops ss) := by
  induction ops generalizing ss with
  | nil => exact noStep_hplast w ss
  | cons op rest ih =>
    unfold runOps
    apply seqRes_hplast w ss _ _ (processOp_respCount cfg w op ss)
      (processOp_hplast cfg w op ss)
    exact ih _

theorem initialVal_respCount (cfg : Conf) (w : World) (ss : SimState) :
    RespCount ss (initialVal cfg w ss) := by
  unfold initialVal
  exact ite_respCount _ ss _ _ (validate_respCount cfg w none ss)
    (noStep_respCount ss)

theorem initialVal_hplast (cfg : Conf) (w : World) (ss : SimState) :
    HPLast w ss (initialVal cfg w ss) := by
  unfold initialVal
  exact ite_hplast _ w ss _ _ (validate_hplast w cfg none ss)
    (noStep_hplast w ss)

theorem runBody_hplast (cfg : Conf) (w : World) (ops : List SearcherOp)
    (ss : SimState) : HPLast w ss (runBody cfg w ops ss) := by
  unfold runBody
  apply seqRes_hplast w ss _ _ (initialVal_respCount cfg w ss)
    (initialVal_hplast cfg w ss)
  exact runOps_hplast cfg w ops _

theorem handleExit_no_run (cfg : Conf) (w : World) (ss : SimState) :
    ∀ x ∈ (handleExit cfg w ss).acts, x.kind ≠ Kind.RUN_STEP := by
  unfold handleExit
  split
  · intro x hx
    simp [noStep] at hx
  · exact checkpoint_no_run cfg w true ss

/-! ### Claim C5: INVALID_HP on a train result aborts the stream -/

theorem runSeq_exit (cfg : Conf) (w : World) (ops : List SearcherOp)
    (ss : SimState)
    (h : (runBody cfg w ops ss).stop = some Stop.exitEx) :
    runSeq cfg w ops ss
      = ((runBody cfg w ops ss).acts
          ++ (handleExit cfg w (runBody cfg w ops ss).ss).acts,
        (handleExit cfg w (runBody cfg w ops ss).ss).ss) := by
  unfold runSeq
  dsimp only
  rw [h]

theorem runSeq_no_exit (cfg : Conf) (w : World) (ops : List SearcherOp)
    (ss : SimState)
    (h : ¬ (runBody cfg w ops ss).stop = some Stop.exitEx) :
    runSeq cfg w ops ss
      = ((runBody cfg w ops ss).acts, (runBody cfg w ops ss).ss) := by
  unfold runSeq
  dsimp only
  cases hs : (runBody cfg w ops ss).stop with
  | none => rfl
  | some s =>
    cases s with
    | exitEx => exact absurd hs h
    | valueErr => rfl
    | assertErr => rfl

/-- C5: an INVALID_HP train response raises ShouldExit with latest_batch,
total_records and step_id untouched (only the response cursor advances);
the exit handler emits exactly one final Checkpoint when last_ckpt differs
from latest_batch and nothing otherwise; and in any full run, once a
RUN_STEP workload receives an INVALID_HP response, the rest of the action
stream is empty or a single final Checkpoint. -/
theorem c5_invalid_hp_aborts (cfg : Conf) (w : World) (nb : Int)
    (op : SearcherOp) (ss : SimState)
    (hresp : (w.resp ss.nResp).exited_reason
      = some ExitedReason.INVALID_HP) :
    (train cfg w nb op ss
      = ⟨[trainW ss.st nb], { ss with nResp := ss.nResp + 1 },
          some Stop.exitEx⟩) ∧
    (∀ ss' : SimState, checkpoint_is_current ss'.st →
      (handleExit cfg w ss').acts = []) ∧
    (∀ ss' : SimState, ¬ checkpoint_is_current ss'.st →
      (handleExit cfg w ss').acts = [ckptW (applyCkptStart ss'.st)]) ∧
    (∀ (ops : List SearcherOp) (ss0 : SimState) (k : Nat) (wk : Workload),
      (runSeq cfg w ops ss0).1[k]? = some wk →
      wk.kind = Kind.RUN_STEP →
      (w.resp (ss0.nResp + k)).exited_reason
        = some ExitedReason.INVALID_HP →
      ((runSeq cfg w ops ss0).1.drop (k + 1) = []
        ∨ ∃ wk', (runSeq cfg w ops ss0).1.drop (k + 1) = [wk']
            ∧ wk'.kind = Kind.CHECKPOINT_MODEL)) := by
  refine ⟨?_, ?_, ?_, ?_⟩
  · simp only [train]
    rw [if_pos hresp]
  · intro ss' hc
    unfold handleExit
    rw [if_pos hc]
    rfl
  · intro ss' hc
    unfold handleExit
    rw [if_neg hc]
    exact checkpoint_acts cfg w true ss'
  · intro ops ss0 k wk hk hkind hr
    have hbody := runBody_hplast cfg w ops ss0
    by_cases hex : (runBody cfg w ops ss0).stop = some Stop.exitEx
    · rw [runSeq_exit cfg w ops ss0 hex] at hk ⊢
      dsimp only at hk ⊢
      by_cases hlt : k < (runBody cfg w ops ss0).acts.length
      · rw [List.getElem?_append_left hlt] at hk
        have hm := hbody k wk hk hkind hr
        rw [hm.1]
        rw [List.drop_left]
        unfold handleExit
        split
        · left
          rfl
        · right
          rw [checkpoint_acts]
          exact ⟨ckptW (applyCkptStart
            (runBody cfg w ops ss0).ss.st), rfl, rfl⟩
      · push_neg at hlt
        rw [List.getElem?_append_right hlt] at hk
        exact absurd hkind
          (handleExit_no_run cfg w _ wk (List.getElem?_mem hk))
    · rw [runSeq_no_exit cfg w ops ss0 hex] at hk ⊢
      dsimp only at hk ⊢
      have hm := hbody k wk hk hkind hr
      exact absurd hm.2 hex

/-- A world whose every response reports INVALID_HP. -/
def wHP : World :=
  { wW with resp := fun _ =>
      { exited_reason := some ExitedReason.INVALID_HP,
        num_inputs := some 1, metric := 0 } }

theorem runSeq_wHP_trace :
    (runSeq cfgW wHP [opX] (initSim 1)).1
      = [trainW (initState 1) 5] := by
  have e1 := opLoop_stop cfgW wHP opX { initSim 1 with comps := 0 } 10
    Stop.exitEx rfl (by decide) rfl
  have h2 : processOp cfgW wHP opX (initSim 1)
      = iteration cfgW wHP opX { initSim 1 with comps := 0 } := by
    unfold processOp
    rw [e1]
    rw [seqRes_some _ _ Stop.exitEx rfl]
  have h1 : runBody cfgW wHP [opX] (initSim 1)
      = runOps cfgW wHP [opX] (initSim 1) := rfl
  have hstop : (processOp cfgW wHP opX (initSim 1)).stop
      = some Stop.exitEx := by
    rw [h2]
    rfl
  have h3 : runOps cfgW wHP [opX] (initSim 1)
      = processOp cfgW wHP opX (initSim 1) := by
    unfold runOps
    rw [seqRes_some _ _ Stop.exitEx hstop]
  have hb : (runBody cfgW wHP [opX] (initSim 1)).stop
      = some Stop.exitEx := by
    rw [h1, h3, hstop]
  rw [runSeq_exit cfgW wHP [opX] (initSim 1) hb]
  dsimp only
  rw [h1, h3, h2]
  rfl

/-- Witness for C5: after the aborting Train at index 0 of the concrete
run, the remaining stream is empty (the checkpoint was still current). -/
theorem c5_invalid_hp_aborts_witness :
    (runSeq cfgW wHP [opX] (initSim 1)).1.drop (0 + 1) = []
      ∨ ∃ wk', (runSeq cfgW wHP [opX] (initSim 1)).1.drop (0 + 1) = [wk']
          ∧ wk'.kind = Kind.CHECKPOINT_MODEL :=
  (c5_invalid_hp_aborts cfgW wHP 5 opX (initSim 1) rfl).2.2.2 [opX]
    (initSim 1) 0 (trainW (initState 1) 5)
    (by rw [runSeq_wHP_trace]; rfl) rfl rfl

end WLSQ
